/-
Verification of the Pokémon battle server (`server.js`) against its
specification.  The JavaScript source is shallowly embedded: JS numbers are
modelled as rationals, fallible results as `Option`, the cooperative
(single-threaded) concurrency of the promise-map fetch pipeline as an explicit
state machine over atomic segments between `await` points, and the aliasing
behaviour of `structuredClone` as an explicit heap model.
-/
import Mathlib

namespace PokemonSrv

/-- A battle move as produced by the move-fetch pipeline (server.js 54-57,
64): `name` is the (display or raw) name, `power` the numeric power.
`power = none` models a non-numeric power field, which `calculateDamage`
guards against with `typeof move.power !== 'number'`. -/
structure Move where
  name : String
  power : Option ℚ
deriving DecidableEq

/-- Base (template) data for a Pokémon as built by the producer of
`getPokemonDetails` (server.js 135-146).  Stats are JS numbers, modelled as
rationals. -/
structure BaseData where
  id : ℤ
  apiId : String
  name : String
  hp : ℚ
  attack : ℚ
  defense : ℚ
  speed : ℚ
  spriteUrl : Option String
  moves : List Move
  abilityName : String
deriving DecidableEq

/-- A battle instance of a Pokémon: the spread of the base data plus the
mutable battle fields added by `createPokemonInstance` (server.js 176-181). -/
structure Creature where
  base : BaseData
  maxHp : ℚ
  currentHp : ℚ
  fainted : Bool
deriving DecidableEq

/-- `createPokemonInstance` (server.js 174-182): `null` propagates, otherwise
`maxHp = currentHp = hp` and `fainted = false`. -/
def createPokemonInstance (b : Option BaseData) : Option Creature :=
  b.map fun bd => { base := bd, maxHp := bd.hp, currentHp := bd.hp, fainted := false }

/-- `calculateDamage` (server.js 384-401).  `none` arguments model missing
(falsy) objects and `power = none` a non-numeric power.  The random factor
`r` (`Math.random() * 0.15 + 0.85`, server.js 394) is passed as a parameter.
JS truthiness: `!attacker.attack` rejects a zero attack stat and
`!defender.defense || defender.defense <= 0` rejects a non-positive
defense; `move.power === 0` returns 0 before the formula is used. -/
def calculateDamage (attacker defender : Option Creature) (move : Option Move)
    (r : ℚ) : ℤ :=
  match attacker, defender, move with
  | some a, some d, some m =>
    match m.power with
    | none => 0
    | some p =>
      if a.base.attack = 0 ∨ d.base.defense = 0 ∨ d.base.defense ≤ 0 then 0
      else if p = 0 then 0
      else
        let baseDamage : ℤ := ⌊a.base.attack / d.base.defense * p / 8 + 2⌋
        max 1 ⌊(baseDamage : ℚ) * r⌋
  | _, _, _ => 0

/-- C4: for a damaging move (power > 0) used between creatures with positive
attack and defense stats, the damage equals `max 1 ⌊base * r⌋` with
`base = ⌊(attack / defense) * power / 8 + 2⌋`; a status move (power 0)
always deals 0 (so the floor-of-1 rule is never applied to it); and in the
example attack = 80, defense = 50, power = 40 the base is 10 and, for every
random factor `r` in `[0.85, 1]`, the final damage lies in `[8, 10]`. -/
theorem damage_formula (a d : Creature) (m : Move) (p r : ℚ)
    (hp : m.power = some p) (hppos : 0 < p)
    (hatk : 0 < a.base.attack) (hdef : 0 < d.base.defense) :
    calculateDamage (some a) (some d) (some m) r
      = max 1 ⌊((⌊a.base.attack / d.base.defense * p / 8 + 2⌋ : ℤ) : ℚ) * r⌋
    ∧ (∀ m0 : Move, m0.power = some 0 →
        calculateDamage (some a) (some d) (some m0) r = 0)
    ∧ (a.base.attack = 80 → d.base.defense = 50 → p = 40 →
        (85 / 100 : ℚ) ≤ r → r ≤ 1 →
        (⌊a.base.attack / d.base.defense * p / 8 + 2⌋ : ℤ) = 10
        ∧ 8 ≤ calculateDamage (some a) (some d) (some m) r
        ∧ calculateDamage (some a) (some d) (some m) r ≤ 10) := by
  have hguards : ¬ (a.base.attack = 0 ∨ d.base.defense = 0 ∨ d.base.defense ≤ 0) := by
    push_neg
    exact ⟨ne_of_gt hatk, ne_of_gt hdef, hdef⟩
  refine ⟨?_, ?_, ?_⟩
  · simp only [calculateDamage, hp, if_neg hguards, if_neg (ne_of_gt hppos)]
  · intro m0 h0
    simp only [calculateDamage, h0, if_neg hguards]
    norm_num
  · intro h80 h50 h40 hr1 hr2
    have hbase : (⌊a.base.attack / d.base.defense * p / 8 + 2⌋ : ℤ) = 10 := by
      rw [h80, h50, h40]; norm_num
    refine ⟨hbase, ?_, ?_⟩
    · have hfl : (8 : ℤ) ≤ ⌊((⌊a.base.attack / d.base.defense * p / 8 + 2⌋ : ℤ) : ℚ) * r⌋ := by
        rw [hbase]
        refine Int.le_floor.mpr ?_
        push_cast
        nlinarith
      simp only [calculateDamage, hp, if_neg hguards, if_neg (ne_of_gt hppos)]
      omega
    · have hfl : ⌊((⌊a.base.attack / d.base.defense * p / 8 + 2⌋ : ℤ) : ℚ) * r⌋ ≤ 10 := by
        rw [hbase]
        have : ((10 : ℤ) : ℚ) * r ≤ ((10 : ℤ) : ℚ) := by
          push_cast; nlinarith
        calc ⌊((10 : ℤ) : ℚ) * r⌋ ≤ ⌊((10 : ℤ) : ℚ)⌋ := Int.floor_le_floor this
          _ = 10 := by norm_num
      simp only [calculateDamage, hp, if_neg hguards, if_neg (ne_of_gt hppos)]
      omega

/-- A sample creature for concrete evaluation. -/
def sampleCreature (atk def_ : ℚ) : Creature :=
  { base := { id := 25, apiId := "25", name := "Pikachu", hp := 35, attack := atk,
              defense := def_, speed := 90, spriteUrl := none,
              moves := [], abilityName := "Static" },
    maxHp := 35, currentHp := 35, fainted := false }

theorem damage_formula_witness :
    ((sampleCreature 80 50).base.attack = 80
      ∧ 8 ≤ calculateDamage (some (sampleCreature 80 50)) (some (sampleCreature 80 50))
              (some { name := "Tackle", power := some 40 }) (9 / 10)
      ∧ calculateDamage (some (sampleCreature 80 50)) (some (sampleCreature 80 50))
              (some { name := "Tackle", power := some 40 }) (9 / 10) ≤ 10) := by
  refine ⟨rfl, ?_, ?_⟩
  · exact (((damage_formula (sampleCreature 80 50) (sampleCreature 80 50)
      { name := "Tackle", power := some 40 } 40 (9 / 10) rfl (by norm_num)
      (by norm_num [sampleCreature]) (by norm_num [sampleCreature])).2.2
      rfl rfl rfl (by norm_num) (by norm_num)).2.1)
  · exact (((damage_formula (sampleCreature 80 50) (sampleCreature 80 50)
      { name := "Tackle", power := some 40 } 40 (9 / 10) rfl (by norm_num)
      (by norm_num [sampleCreature]) (by norm_num [sampleCreature])).2.2
      rfl rfl rfl (by norm_num) (by norm_num)).2.2)

/-- C10: `calculateDamage` is total over the model and always returns a
non-negative integer; it returns 0 whenever the attacker, defender or move
argument is missing, whenever the power is not a number or is 0, and
whenever the defense stat is non-positive, so the division by the defense
never occurs on a non-positive denominator. -/
theorem damage_total (a d : Option Creature) (m : Option Move) (r : ℚ) :
    0 ≤ calculateDamage a d m r
    ∧ (a = none ∨ d = none ∨ m = none → calculateDamage a d m r = 0)
    ∧ (∀ (a0 d0 : Creature) (m0 : Move),
        m0.power = none ∨ m0.power = some 0 ∨ d0.base.defense ≤ 0 →
        calculateDamage (some a0) (some d0) (some m0) r = 0) := by
  refine ⟨?_, ?_, ?_⟩
  · unfold calculateDamage
    repeat' split
    any_goals exact le_refl 0
    exact le_trans (by norm_num) (le_max_left 1 _)
  · rintro (rfl | rfl | rfl)
    · cases d <;> cases m <;> rfl
    · cases a <;> cases m <;> rfl
    · cases a <;> cases d <;> rfl
  · intro a0 d0 m0 hcase
    rcases hcase with h | h | h
    · simp [calculateDamage, h]
    · simp [calculateDamage, h]
    · rcases hz : m0.power with _ | p
      · simp [calculateDamage, hz]
      · simp [calculateDamage, hz, h]

theorem damage_total_witness :
    calculateDamage none none none 1 = 0 ∧ 0 ≤ calculateDamage none none none 1 := by
  exact ⟨(damage_total none none none 1).2.1 (Or.inl rfl),
    (damage_total none none none 1).1⟩

/-!
## The promise-map fetch pipeline (request coalescing)

`getMoveDetails` (server.js 37-77) and `getPokemonDetails` (server.js 84-169)
share the same cooperative-concurrency structure over a value cache and a
promise map (server.js 25-28).  Because JS is single-threaded, each caller
runs atomically from its entry up to its first `await`; the model below makes
that atomic segment a step `startCall`, and the settlement of the single
in-flight remote request (which resumes all waiting callers) a step
`settleFetch`.  Callers are identified by natural numbers.
-/

/-- State of one promise-map fetch pipeline: the value cache
(`pokemonDataCache` / `moveDataCache`), the pending map
(`pokemonFetchPromises` / `moveFetchPromises`, kept as the list of callers
awaiting the single in-flight request, in arrival order), and a count of
producer (remote `axios.get`) invocations per key. -/
structure FetchState (V : Type) where
  cache : String → Option V
  pending : String → Option (List ℕ)
  invocations : String → ℕ

/-- One caller entering the fetch function (server.js 41-48 / 88-95), run
atomically up to its `await`: a cache hit returns `structuredClone` of the
cached value at once (content-equal to the cached value); on a miss the
caller installs a fresh fetch — invoking the producer — only when no fetch
is pending for the key, and in every miss case joins the waiters of the
pending fetch. -/
def startCall {V : Type} (s : FetchState V) (k : String) (c : ℕ) :
    FetchState V × Option V :=
  match s.cache k with
  | some v => (s, some v)
  | none =>
    match s.pending k with
    | none =>
      ({ s with
          pending := fun k2 => if k2 = k then some [c] else s.pending k2,
          invocations := fun k2 => if k2 = k then s.invocations k2 + 1
                                   else s.invocations k2 },
        none)
    | some ws =>
      ({ s with pending := fun k2 => if k2 = k then some (ws ++ [c])
                                     else s.pending k2 },
        none)

/-- A sequence of callers entering the fetch function for key `k`, each
running its atomic entry segment in turn; the second component collects the
results of callers that completed without suspending (cache hits). -/
def startCalls {V : Type} (s : FetchState V) (k : String) :
    List ℕ → FetchState V × List (ℕ × Option V)
  | [] => (s, [])
  | c :: cs =>
    match startCall s k c with
    | (s1, r) =>
      match startCalls s1 k cs with
      | (s2, rs) =>
        (s2, (match r with | some v => [(c, some v)] | none => []) ++ rs)

/-- The in-flight fetch for `k` settling (server.js 50-76 / 97-168): on
success the produced value is cached and every waiter resumes receiving a
clone of it; on failure every waiter receives the failure result
(`failResult = none` models the `null` returned by `getPokemonDetails`,
a `some` models the zero-power fallback move of `getMoveDetails`); in both
cases the pending entry is deleted by the `finally` clause.  The second
component is the list of resumed callers paired with the value each
receives. -/
def settleFetch {V : Type} (s : FetchState V) (k : String)
    (outcome : Option V) (failResult : Option V) :
    FetchState V × List (ℕ × Option V) :=
  match s.pending k with
  | none => (s, [])
  | some ws =>
    match outcome with
    | some v =>
      ({ s with
          cache := fun k2 => if k2 = k then some v else s.cache k2,
          pending := fun k2 => if k2 = k then none else s.pending k2 },
        ws.map fun c => (c, some v))
    | none =>
      ({ s with pending := fun k2 => if k2 = k then none else s.pending k2 },
        ws.map fun c => (c, failResult))

/-- Helper: starting callers while a fetch for `k` is already pending (and
the key uncached) only appends waiters: it produces no immediate results,
invokes no producer, and leaves every other key alone. -/
theorem startCalls_pending {V : Type} (k : String) :
    ∀ (cs : List ℕ) (s : FetchState V) (ws : List ℕ),
      s.cache k = none → s.pending k = some ws →
      (startCalls s k cs).1.cache = s.cache
      ∧ (startCalls s k cs).1.pending k = some (ws ++ cs)
      ∧ (∀ k2, k2 ≠ k → (startCalls s k cs).1.pending k2 = s.pending k2)
      ∧ (startCalls s k cs).1.invocations = s.invocations
      ∧ (startCalls s k cs).2 = [] := by
  intro cs
  induction cs with
  | nil => intro s ws hc hw; exact ⟨rfl, by simpa using hw, fun _ _ => rfl, rfl, rfl⟩
  | cons c cs ih =>
    intro s ws hc hw
    have hstep : startCall s k c =
        ({ s with pending := fun k2 => if k2 = k then some (ws ++ [c])
                                       else s.pending k2 }, none) := by
      simp [startCall, hc, hw]
    set s1 : FetchState V :=
      { s with pending := fun k2 => if k2 = k then some (ws ++ [c])
                                    else s.pending k2 } with hs1
    have h1c : s1.cache k = none := hc
    have h1w : s1.pending k = some (ws ++ [c]) := by simp [hs1]
    obtain ⟨ha, hb, hb2, hcc, hd⟩ := ih s1 (ws ++ [c]) h1c h1w
    refine ⟨?_, ?_, ?_, ?_, ?_⟩
    · simpa [startCalls, hstep] using ha
    · simp only [startCalls, hstep]
      simpa using hb
    · intro k2 hk2
      simp only [startCalls, hstep]
      rw [hb2 k2 hk2]
      simp [hs1, hk2]
    · simpa [startCalls, hstep] using hcc
    · simp [startCalls, hstep, hd]

/-- C1: `N ≥ 2` callers concurrently entering the fetch function
(`getPokemonDetails` / `getMoveDetails`) for an uncached key with no fetch
pending: the producer is invoked exactly once (by the first caller, and the
invocation count stays at one after every later caller joins); at every
instant there is exactly one pending-fetch entry for the key, holding all
the callers so far; no caller completes early with a divergent value; when
the fetch settles — success or failure — the pending entry is removed and
every one of the `N` callers receives the same (content-equal) value. -/
theorem fetch_coalescing {V : Type} (s0 : FetchState V) (k : String)
    (cs : List ℕ) (outcome failResult : Option V)
    (hN : 2 ≤ cs.length) (hc : s0.cache k = none) (hp : s0.pending k = none) :
    (∀ n, 1 ≤ n → n ≤ cs.length →
      ((startCalls s0 k (cs.take n)).1.invocations k = s0.invocations k + 1
        ∧ (startCalls s0 k (cs.take n)).1.pending k = some (cs.take n)
        ∧ (startCalls s0 k (cs.take n)).2 = []))
    ∧ (startCalls s0 k cs).1.invocations k = s0.invocations k + 1
    ∧ (startCalls s0 k cs).1.pending k = some cs
    ∧ (startCalls s0 k cs).2 = []
    ∧ (settleFetch (startCalls s0 k cs).1 k outcome failResult).1.pending k = none
    ∧ (settleFetch (startCalls s0 k cs).1 k outcome failResult).2
        = cs.map (fun c =>
            (c, match outcome with | some v => some v | none => failResult)) := by
  have key : ∀ (ds : List ℕ) (c : ℕ),
      ((startCalls s0 k (c :: ds)).1.invocations k = s0.invocations k + 1
        ∧ (startCalls s0 k (c :: ds)).1.pending k = some (c :: ds)
        ∧ (startCalls s0 k (c :: ds)).1.cache k = none
        ∧ (startCalls s0 k (c :: ds)).2 = []) := by
    intro ds c
    have hstep : startCall s0 k c =
        ({ s0 with
            pending := fun k2 => if k2 = k then some [c] else s0.pending k2,
            invocations := fun k2 => if k2 = k then s0.invocations k2 + 1
                                     else s0.invocations k2 }, none) := by
      simp [startCall, hc, hp]
    set s1 : FetchState V :=
      { s0 with
          pending := fun k2 => if k2 = k then some [c] else s0.pending k2,
          invocations := fun k2 => if k2 = k then s0.invocations k2 + 1
                                   else s0.invocations k2 } with hs1
    have h1c : s1.cache k = none := hc
    have h1w : s1.pending k = some [c] := by simp [hs1]
    obtain ⟨ha, hb, _, hcc, hd⟩ := startCalls_pending k ds s1 [c] h1c h1w
    refine ⟨?_, ?_, ?_, ?_⟩
    · simp only [startCalls, hstep]
      rw [hcc]
      simp [hs1]
    · simp only [startCalls, hstep]
      simpa using hb
    · simp only [startCalls, hstep]
      rw [ha]
      exact h1c
    · simp [startCalls, hstep, hd]
  have main : (startCalls s0 k cs).1.invocations k = s0.invocations k + 1
      ∧ (startCalls s0 k cs).1.pending k = some cs
      ∧ (startCalls s0 k cs).2 = [] := by
    match cs, hN with
    | c :: ds, _ =>
      obtain ⟨ha, hb, _, hd⟩ := key ds c
      exact ⟨ha, hb, hd⟩
  obtain ⟨hinv, hpend, himm⟩ := main
  refine ⟨?_, hinv, hpend, himm, ?_, ?_⟩
  · intro n hn1 hn2
    match cs, hn1, hn2 with
    | c :: ds, _, _ =>
      match n, hn1 with
      | Nat.succ m, _ =>
        simp only [List.take_succ_cons]
        obtain ⟨ha, hb, _, hd⟩ := key (ds.take m) c
        exact ⟨ha, hb, hd⟩
  · cases outcome <;> simp [settleFetch, hpend]
  · cases outcome <;> simp [settleFetch, hpend]

theorem fetch_coalescing_witness :
    ((fun _ => (none : Option ℕ)) "k" = none)
    ∧ (startCalls (⟨fun _ => none, fun _ => none, fun _ => 0⟩ : FetchState ℕ)
        "k" [0, 1]).1.invocations "k" = 1
    ∧ (settleFetch (startCalls
        (⟨fun _ => none, fun _ => none, fun _ => 0⟩ : FetchState ℕ)
        "k" [0, 1]).1 "k" (some 7) none).2 = [(0, some 7), (1, some 7)] := by
  have h := fetch_coalescing (V := ℕ) ⟨fun _ => none, fun _ => none, fun _ => 0⟩
    "k" [0, 1] (some 7) none (by norm_num) rfl rfl
  exact ⟨rfl, h.2.1, by rw [h.2.2.2.2.2]; rfl⟩

/-!
## The Pokémon resolver

The producer body of `getPokemonDetails` (server.js 95-160) transforms the
remote species record into the cached `BaseData`.  The remote endpoints are
modelled as environments: the species record is given as an `Option`
(`none` = remote failure, which makes the resolution fail as a whole), and
each move fetch outcome as `Option (Option ℚ)` (`none` = remote failure,
`some pw` = success with the nullable power field `pw`).
-/

/-- One entry of `version_group_details` (server.js 107-108). -/
structure VersionGroupDetail where
  versionGroup : String
  moveLearnMethod : String
deriving DecidableEq

/-- One entry of the species record's `moves` array (server.js 106-113). -/
structure MoveInfo where
  moveName : String
  vgds : List VersionGroupDetail
deriving DecidableEq

/-- One entry of the species record's `abilities` array (server.js 132). -/
structure AbilityInfo where
  abilityName : String
  isHidden : Bool
deriving DecidableEq

/-- The remote species record consumed by the producer of
`getPokemonDetails` (server.js 98-146): stats as (name, base_stat) pairs,
the move-learn records, the ability list and the sprite reference. -/
structure SpeciesData where
  id : ℤ
  name : String
  stats : List (String × ℚ)
  moves : List MoveInfo
  abilities : List AbilityInfo
  spriteUrl : Option String
deriving DecidableEq

/-- `getStat` (server.js 101): the first matching stat's `base_stat`,
defaulting to 0 when absent (`?.base_stat || 0`). -/
def getStat (d : SpeciesData) (statName : String) : ℚ :=
  ((d.stats.find? fun s2 => s2.1 = statName).map fun s2 => s2.2).getD 0

/-- server.js 19. -/
def TARGET_GAME_VERSION_GROUP : String := "scarlet-violet"

/-- server.js 18. -/
def MAX_MOVES_PER_POKEMON : ℕ := 4

/-- The first move-selection loop (server.js 106-114): collect moves learned
by level-up in the target version group, stopping once enough are found
(the length check runs after each push). -/
def levelUpLoop : List MoveInfo → List MoveInfo → List MoveInfo
  | [], acc => acc
  | mi :: rest, acc =>
    let acc2 :=
      if (mi.vgds.find? fun vgd =>
            vgd.versionGroup = TARGET_GAME_VERSION_GROUP
              && vgd.moveLearnMethod = "level-up").isSome
      then acc ++ [mi] else acc
    if MAX_MOVES_PER_POKEMON ≤ acc2.length then acc2 else levelUpLoop rest acc2

/-- The fill loop (server.js 119-124): walk all moves again, skipping names
already selected by the level-up loop (the `existingNames` list is fixed
before the loop), until enough moves are collected (the length check runs
before each push). -/
def fillLoop (existingNames : List String) :
    List MoveInfo → List MoveInfo → List MoveInfo
  | [], acc => acc
  | mi :: rest, acc =>
    if MAX_MOVES_PER_POKEMON ≤ acc.length then acc
    else if existingNames.contains mi.moveName then fillLoop existingNames rest acc
    else fillLoop existingNames rest (acc ++ [mi])

/-- The move selection of the producer (server.js 104-125). -/
def selectMoveInfos (moves : List MoveInfo) : List MoveInfo :=
  let sel := levelUpLoop moves []
  if sel.length < MAX_MOVES_PER_POKEMON then
    fillLoop (sel.map fun mi => mi.moveName) moves sel
  else sel

/-- `split('-')` on the character list of a JS string (accumulator holds the
current token reversed). -/
def splitHyphens : List Char → List Char → List (List Char)
  | [], acc => [acc.reverse]
  | c :: rest, acc =>
    if c = '-' then acc.reverse :: splitHyphens rest []
    else splitHyphens rest (c :: acc)

/-- `word.charAt(0).toUpperCase() + word.slice(1)`. -/
def capitalizeWord (w : List Char) : List Char :=
  match w with
  | [] => []
  | c :: rest => c.toUpper :: rest

/-- `join(' ')`. -/
def joinSpaces : List (List Char) → List Char
  | [] => []
  | [w] => w
  | w :: rest => w ++ ' ' :: joinSpaces rest

/-- Display-name formatting (server.js 55 and 133):
`name.split('-').map(w => w.charAt(0).toUpperCase() + w.slice(1)).join(' ')`,
modelled on character lists. -/
def formatDisplayName (s : String) : String :=
  String.mk (joinSpaces ((splitHyphens s.data []).map capitalizeWord))

/-- The value produced by `getMoveDetails` for a move whose fetch is fresh
(server.js 48-76): on success (`outcome = some pw`) the name is formatted
and a null power becomes 0 (server.js 54-57); on remote failure
(`outcome = none`) the fallback keeps the raw hyphenated key name with
power 0 (server.js 64) — the returned promise resolves either way, so the
`Promise.all` join in the creature producer never rejects on a move
failure. -/
def moveDetailsResult (moveName : String) (outcome : Option (Option ℚ)) : Move :=
  match outcome with
  | none => { name := moveName, power := some 0 }
  | some pw => { name := formatDisplayName moveName, power := some (pw.getD 0) }

/-- The producer body of `getPokemonDetails` (server.js 95-160) evaluated
against the remote environment.  A species-fetch failure fails the whole
resolution (`getPokemonDetails` then returns `null`, server.js 152-168);
otherwise every selected move resolves via `moveDetailsResult` (never
`null`, so the `filter(m => m !== null)` of server.js 144 keeps them all),
and the first non-hidden ability is selected with the sentinel `"Unknown"`
as default (server.js 132-133). -/
def getPokemonDetailsResult (identifier : String) (species : Option SpeciesData)
    (moveEnv : String → Option (Option ℚ)) : Option BaseData :=
  match species with
  | none => none
  | some data =>
    some
      { id := data.id
        apiId := identifier
        name := (data.name.take 1).toUpper ++ data.name.drop 1
        hp := getStat data "hp"
        attack := getStat data "attack"
        defense := getStat data "defense"
        speed := getStat data "speed"
        spriteUrl := data.spriteUrl
        moves := (selectMoveInfos data.moves).map fun mi =>
          moveDetailsResult mi.moveName (moveEnv mi.moveName)
        abilityName :=
          match data.abilities.find? fun a2 => !a2.isHidden with
          | some a2 => formatDisplayName a2.abilityName
          | none => "Unknown" }

/-- A concrete species record with four level-up moves, used to evaluate the
move-fallback behaviour. -/
def tackleSpecies : SpeciesData :=
  { id := 16
    name := "pidgey"
    stats := [("hp", 40), ("attack", 45), ("defense", 40), ("speed", 56)]
    moves :=
      [ { moveName := "tackle",
          vgds := [{ versionGroup := "scarlet-violet", moveLearnMethod := "level-up" }] }
      , { moveName := "sand-attack",
          vgds := [{ versionGroup := "scarlet-violet", moveLearnMethod := "level-up" }] }
      , { moveName := "gust",
          vgds := [{ versionGroup := "scarlet-violet", moveLearnMethod := "level-up" }] }
      , { moveName := "quick-attack",
          vgds := [{ versionGroup := "scarlet-violet", moveLearnMethod := "level-up" }] } ]
    abilities := [{ abilityName := "keen-eye", isHidden := false }]
    spriteUrl := none }

/-- A move environment in which exactly the move endpoint for `"tackle"`
fails; every other move fetch succeeds with power 35. -/
def tackleFailEnv : String → Option (Option ℚ) :=
  fun n => if n = "tackle" then none else some (some 35)

/-- C2 counterexample: with the remote move endpoint failing for key
`"tackle"`, the resolved creature does NOT contain a move entry named
`"Tackle"` — the fallback (server.js 64) keeps the raw lower-case key
`"tackle"` instead of the formatted display name, so the claim as stated
fails. -/
theorem move_fallback_counterexample :
    (getPokemonDetailsResult "16" (some tackleSpecies) tackleFailEnv).isSome = true
    ∧ ((getPokemonDetailsResult "16" (some tackleSpecies) tackleFailEnv).all
        fun bd => bd.moves.all fun m => m.name ≠ "Tackle") = true
    ∧ ((getPokemonDetailsResult "16" (some tackleSpecies) tackleFailEnv).all
        fun bd => decide (({ name := "tackle", power := some 0 } : Move)
          ∈ bd.moves)) = true := by
  exact ⟨rfl, by decide, by decide⟩

/-- C2 (amended): if the remote move endpoint fails for the move key
`"tackle"` and `"tackle"` is among the selected moves, creature resolution
still succeeds and the resolved creature's move list contains a move entry
with the raw key name `"tackle"` and power 0 — a single move lookup failure
degrades to a zero-power move entry rather than aborting the whole creature
resolution. -/
theorem move_fallback (identifier : String) (data : SpeciesData)
    (moveEnv : String → Option (Option ℚ)) (mi : MoveInfo)
    (hsel : mi ∈ selectMoveInfos data.moves) (hname : mi.moveName = "tackle")
    (hfail : moveEnv "tackle" = none) :
    ∃ bd, getPokemonDetailsResult identifier (some data) moveEnv = some bd
      ∧ ({ name := "tackle", power := some 0 } : Move) ∈ bd.moves := by
  refine ⟨_, rfl, ?_⟩
  have : moveDetailsResult mi.moveName (moveEnv mi.moveName)
      = { name := "tackle", power := some 0 } := by
    rw [hname, hfail]
    rfl
  simpa [getPokemonDetailsResult] using
    ⟨mi, hsel, this⟩

theorem move_fallback_witness :
    ∃ bd, getPokemonDetailsResult "16" (some tackleSpecies) tackleFailEnv = some bd
      ∧ ({ name := "tackle", power := some 0 } : Move) ∈ bd.moves := by
  exact move_fallback "16" tackleSpecies tackleFailEnv
    { moveName := "tackle",
      vgds := [{ versionGroup := "scarlet-violet", moveLearnMethod := "level-up" }] }
    (by decide) rfl rfl

/-!
## The match state machine

Per-match state (server.js 243, 274), the `selectTeam` handler
(server.js 250-281), the `performAction` handler (server.js 284-354) and the
disconnect handler (server.js 362-376).  A game always has exactly two
players, stored in join order (`playerOrder`).  In the JS source,
`playerState.activePokemon` always aliases `playerState.team[activePokemonIndex]`
(it is assigned from the team array at battle start and on every switch), so
the model stores only the index and mutations go through the team list.
Transport emissions are modelled as an ordered `Event` list; error returns
(the elided `/* ... error ... */ return;` branches) set the `error` flag and
leave the state as it was at the return point. -/

/-- Outbound transport events relevant to the claims. -/
inductive Event where
  | gameStateUpdate
  | battleStart
  | gameOverEvt (winnerId : String)
  | forceSwitch (reason : String)
  | opponentDisconnected (message : String)
  | opponentReady
  | waitingForOpponentSelection
  | gameErrorEvt
deriving DecidableEq

/-- Per-player selection-phase state (server.js 243). -/
structure PlayerInfo where
  username : String
  hasSelected : Bool
  team : Option (List Creature)
deriving DecidableEq

/-- Per-player battle-phase state (server.js 274): the spread of the player
data plus the active-creature reference, modelled by its index. -/
structure PlayerBattle where
  id : String
  username : String
  team : List Creature
  activePokemonIndex : ℤ
  mustSwitch : Bool
deriving DecidableEq

/-- The `activePokemon` reference: `team[activePokemonIndex]`. -/
def activePokemon (p : PlayerBattle) : Option Creature :=
  if 0 ≤ p.activePokemonIndex then p.team[p.activePokemonIndex.toNat]? else none

/-- `game.battleState` (server.js 274). -/
structure BattleState where
  player1 : PlayerBattle
  player2 : PlayerBattle
deriving DecidableEq

/-- One match (server.js 243): identifier, the two players in join order,
the battle state (`none` while selecting), the turn pointer and the
narration log. -/
structure Game where
  id : String
  ord1 : String
  ord2 : String
  info1 : PlayerInfo
  info2 : PlayerInfo
  battleState : Option BattleState
  turn : Option String
  log : List String
deriving DecidableEq

/-- `game.players[pid]` for the two stored players. -/
def playerInfoOf (g : Game) (pid : String) : Option PlayerInfo :=
  if pid = g.ord1 then some g.info1
  else if pid = g.ord2 then some g.info2
  else none

/-- `game.playerOrder.find(id => id !== pid)` (server.js 288, 367). -/
def opponentIdOf (g : Game) (pid : String) : Option String :=
  if g.ord1 ≠ pid then some g.ord1
  else if g.ord2 ≠ pid then some g.ord2
  else none

/-- Writing the mutated player/opponent references back into the slots they
alias (the JS code mutates `battleState.playerN` in place; `ps` is the slot
whose `id` matched the actor at server.js 290-291). -/
def writeBack (bs : BattleState) (actorId : String) (ps os : PlayerBattle) :
    BattleState :=
  if bs.player1.id = actorId then { player1 := ps, player2 := os }
  else { player1 := os, player2 := ps }

/-- A client battle action (server.js 299, 318, 327). -/
inductive Action where
  | attack (moveName : String)
  | switch (pokemonIndex : ℤ)
  | other
deriving DecidableEq

/-- `action.type === 'switch'`. -/
def Action.isSwitch : Action → Bool
  | .switch _ => true
  | _ => false

/-- `move.power > 0` (server.js 306) on the modelled power field. -/
def powerPos : Option ℚ → Bool
  | some p => decide (0 < p)
  | none => false

/-- Result of one `performAction` invocation: the match afterwards (`none`
when it was deleted on game over), the leaderboard, the emitted events and
the error flag. -/
structure ActionResult where
  game : Option Game
  leaderboard : String → ℕ
  events : List Event
  error : Bool

/-- The `performAction` handler (server.js 284-354).  `r` is the random
factor consumed by `calculateDamage`.  Flow: battle/turn checks (287),
role identification (289-293), forced-switch check (295), log reset (296),
then the attack (299-317) / switch (318-326) branches and the post-action
game-over (330-338) or turn-end (339-348) handling.  The game-over branch
models the JS exception path (reading the username of a missing player,
caught at 349-353) as an error result. -/
def performAction (g : Game) (lb : String → ℕ) (actorId : String) (a : Action)
    (r : ℚ) : ActionResult :=
  match g.battleState with
  | none => ⟨some g, lb, [], true⟩
  | some bs =>
    if g.turn ≠ some actorId then ⟨some g, lb, [], true⟩
    else
      let oppIdO := opponentIdOf g actorId
      let ps := if bs.player1.id = actorId then bs.player1 else bs.player2
      let os := if bs.player1.id = actorId then bs.player2 else bs.player1
      match activePokemon ps, activePokemon os with
      | some playerPokemon, some opponentPokemon =>
        if ps.mustSwitch && !a.isSwitch then ⟨some g, lb, [], true⟩
        else
          match a with
          | .attack moveName =>
            match playerPokemon.base.moves.find? fun m => m.name = moveName with
            | none => ⟨some { g with log := [] }, lb, [], true⟩
            | some move =>
              if playerPokemon.fainted then ⟨some { g with log := [] }, lb, [], true⟩
              else
                let log1 := [ps.username ++ "'s " ++ playerPokemon.base.name
                  ++ " used " ++ move.name ++ "!"]
                let damage := calculateDamage (some playerPokemon)
                  (some opponentPokemon) (some move) r
                let log2 := log1 ++
                  [if powerPos move.power then
                      os.username ++ "'s " ++ opponentPokemon.base.name
                        ++ " took " ++ toString damage ++ " damage."
                    else "It had no effect..."]
                let newHp := opponentPokemon.currentHp - (damage : ℚ)
                if newHp ≤ 0 then
                  let faintedPk :=
                    { opponentPokemon with currentHp := 0, fainted := true }
                  let osTeam := os.team.set os.activePokemonIndex.toNat faintedPk
                  let log3 := log2 ++ [os.username ++ "'s "
                    ++ opponentPokemon.base.name ++ " fainted!"]
                  if (osTeam.filter fun p2 => !p2.fainted).length = 0 then
                    match playerInfoOf g actorId,
                        oppIdO.bind fun oid => playerInfoOf g oid with
                    | some wInfo, some _ =>
                      ⟨none,
                        fun u => if u = wInfo.username then lb u + 1 else lb u,
                        [Event.gameStateUpdate, Event.gameOverEvt actorId],
                        false⟩
                    | _, _ =>
                      ⟨some { g with
                          battleState := some (writeBack bs actorId ps
                            { os with team := osTeam }),
                          log := log3 },
                        lb, [Event.gameErrorEvt, Event.gameStateUpdate], true⟩
                  else
                    let os2 := { os with team := osTeam, mustSwitch := true }
                    ⟨some { g with
                        battleState := some (writeBack bs actorId ps os2),
                        turn := oppIdO,
                        log := log3 ++ [os.username ++ " must switch Pokémon!"] },
                      lb,
                      [Event.gameStateUpdate,
                        Event.forceSwitch (opponentPokemon.base.name ++ " fainted!")],
                      false⟩
                else
                  let osTeam := os.team.set os.activePokemonIndex.toNat
                    { opponentPokemon with currentHp := newHp }
                  let os2 := { os with team := osTeam }
                  if os2.mustSwitch then
                    ⟨some { g with
                        battleState := some (writeBack bs actorId ps os2),
                        log := log2 ++ [os.username ++ " must switch Pokémon!"] },
                      lb,
                      [Event.gameStateUpdate,
                        Event.forceSwitch (opponentPokemon.base.name ++ " fainted!")],
                      false⟩
                  else
                    ⟨some { g with
                        battleState := some (writeBack bs actorId ps os2),
                        turn := oppIdO,
                        log := log2 ++ ["It's " ++ os.username ++ "'s turn!"] },
                      lb, [Event.gameStateUpdate], false⟩
          | .switch targetIndex =>
            if targetIndex < 0 ∨ (ps.team.length : ℤ) ≤ targetIndex then
              ⟨some { g with log := [] }, lb, [], true⟩
            else
              match ps.team[targetIndex.toNat]? with
              | none => ⟨some { g with log := [] }, lb, [], true⟩
              | some target =>
                if target.fainted ∨ target.base.id = playerPokemon.base.id then
                  ⟨some { g with log := [] }, lb, [], true⟩
                else
                  let ps2 := { ps with
                    activePokemonIndex := targetIndex, mustSwitch := false }
                  let log1 := [ps.username ++ " switched from "
                    ++ playerPokemon.base.name ++ " to " ++ target.base.name ++ "!"]
                  if os.mustSwitch then
                    ⟨some { g with
                        battleState := some (writeBack bs actorId ps2 os),
                        log := log1 ++ [os.username ++ " must switch Pokémon!"] },
                      lb,
                      [Event.gameStateUpdate,
                        Event.forceSwitch (opponentPokemon.base.name ++ " fainted!")],
                      false⟩
                  else
                    ⟨some { g with
                        battleState := some (writeBack bs actorId ps2 os),
                        turn := oppIdO,
                        log := log1 ++ ["It's " ++ os.username ++ "'s turn!"] },
                      lb, [Event.gameStateUpdate], false⟩
          | .other => ⟨some { g with log := [] }, lb, [], true⟩
      | _, _ => ⟨some g, lb, [], true⟩

/-- `activeGames[gid]` (the registry is an association list keyed by match
id). -/
def lookupGame (games : List (String × Game)) (gid : String) : Option Game :=
  (games.find? fun e => e.1 = gid).map fun e => e.2

/-- Store an updated game under its id. -/
def setGame (games : List (String × Game)) (gid : String) (g : Game) :
    List (String × Game) :=
  games.map fun e => if e.1 = gid then (gid, g) else e

/-- `delete activeGames[gid]` (server.js 336, 368). -/
def removeGame (games : List (String × Game)) (gid : String) :
    List (String × Game) :=
  games.filter fun e => e.1 ≠ gid

/-- Registry-level result of a handler. -/
structure ServerResult where
  games : List (String × Game)
  leaderboard : String → ℕ
  events : List Event
  error : Bool

/-- `performAction` at registry level (server.js 284-286, 336): unknown
match rejects; a game-over result deletes the match from the registry. -/
def performActionServer (games : List (String × Game)) (lb : String → ℕ)
    (gid actorId : String) (a : Action) (r : ℚ) : ServerResult :=
  match lookupGame games gid with
  | none => ⟨games, lb, [], true⟩
  | some g =>
    let res := performAction g lb actorId a r
    match res.game with
    | none => ⟨removeGame games gid, res.leaderboard, res.events, res.error⟩
    | some g2 => ⟨setGame games gid g2, res.leaderboard, res.events, res.error⟩

/-- Update one player's selection state inside a game. -/
def setPlayerInfo (g : Game) (pid : String) (i : PlayerInfo) : Game :=
  if pid = g.ord1 then { g with info1 := i }
  else if pid = g.ord2 then { g with info2 := i }
  else g

/-- Result of a `selectTeam` invocation. -/
structure SelectResult where
  games : List (String × Game)
  events : List Event
  error : Bool
deriving DecidableEq

/-- The `selectTeam` handler (server.js 250-281).  `teamIds = none` models a
non-array payload, a `none` list entry a non-number element
(`typeof id === 'number'` is the only element check, server.js 254); `env`
models `getPokemonDetails` resolution per numeric id (`none` = resolution
failed and returned `null`).  Validation rejects before any state change;
after validation the three resolutions run and a `null` among them rejects
with the selection state unchanged (server.js 262); on success the
instantiated team is stored and selection marked complete, and when both
players have selected, the battle starts: both active indices 0, first turn
to the faster creature with ties to player one (server.js 270-278). -/
def selectTeam (games : List (String × Game)) (socketId gameId : String)
    (teamIds : Option (List (Option ℚ))) (env : ℚ → Option BaseData) :
    SelectResult :=
  match lookupGame games gameId with
  | none => ⟨games, [], true⟩
  | some g =>
    match playerInfoOf g socketId with
    | none => ⟨games, [], true⟩
    | some info =>
      if info.hasSelected then ⟨games, [], true⟩
      else
        match teamIds with
        | none => ⟨games, [], true⟩
        | some ids =>
          if ids.length ≠ 3 ∨ ¬ (ids.all fun x => x.isSome) then ⟨games, [], true⟩
          else
            let results := ids.map fun x => x.bind env
            if results.any fun x => x.isNone then ⟨games, [], true⟩
            else
              let team := results.filterMap createPokemonInstance
              let g2 := setPlayerInfo g socketId
                { info with hasSelected := true, team := some team }
              if g2.info1.hasSelected && g2.info2.hasSelected then
                match g2.info1.team, g2.info2.team with
                | some t1, some t2 =>
                  if t1.length ≠ 3 ∨ t2.length ≠ 3 then
                    ⟨setGame games gameId g2, [], true⟩
                  else
                    match t1, t2 with
                    | c1 :: _, c2 :: _ =>
                      let turn := if c2.base.speed ≤ c1.base.speed then g2.ord1
                                  else g2.ord2
                      let pb1 : PlayerBattle :=
                        { id := g2.ord1, username := g2.info1.username,
                          team := t1, activePokemonIndex := 0, mustSwitch := false }
                      let pb2 : PlayerBattle :=
                        { id := g2.ord2, username := g2.info2.username,
                          team := t2, activePokemonIndex := 0, mustSwitch := false }
                      let g3 := { g2 with
                        battleState := some { player1 := pb1, player2 := pb2 },
                        turn := some turn,
                        log := ["Battle Start!",
                          g2.info1.username ++ "'s " ++ c1.base.name ++ " vs "
                            ++ g2.info2.username ++ "'s " ++ c2.base.name ++ "!",
                          "It's " ++ (if turn = g2.ord1 then g2.info1.username
                            else g2.info2.username) ++ "'s turn!"] }
                      ⟨setGame games gameId g3, [Event.battleStart], false⟩
                    | _, _ => ⟨setGame games gameId g2, [], true⟩
                | _, _ => ⟨setGame games gameId g2, [], true⟩
              else
                ⟨setGame games gameId g2,
                  [Event.opponentReady, Event.waitingForOpponentSelection], false⟩

/-- Result of a disconnect. -/
structure DisconnectResult where
  games : List (String × Game)
  leaderboard : String → ℕ
  events : List Event

/-- The disconnect handler (server.js 362-376): find the match containing
the disconnected socket, delete it, and — when the opponent socket is still
connected — award the opponent a leaderboard win exactly when the battle had
started (`game.battleState` truthy) and notify it with the corresponding
message. -/
def handleDisconnect (games : List (String × Game)) (lb : String → ℕ)
    (socketId : String) (opponentConnected : Bool) : DisconnectResult :=
  match games.find? fun e => (playerInfoOf e.2 socketId).isSome with
  | none => ⟨games, lb, []⟩
  | some e =>
    let g := e.2
    let games2 := removeGame games e.1
    match opponentIdOf g socketId with
    | none => ⟨games2, lb, []⟩
    | some oid =>
      if opponentConnected then
        let oppUsername := match playerInfoOf g oid with
          | some i => i.username
          | none => "Opponent"
        let discUsername := match playerInfoOf g socketId with
          | some i => i.username
          | none => "Player"
        let lb2 := if g.battleState.isSome then
            fun u => if u = oppUsername then lb u + 1 else lb u
          else lb
        ⟨games2, lb2,
          [Event.opponentDisconnected (discUsername ++ " disconnected. "
            ++ (if g.battleState.isSome then "You win!" else "Match cancelled."))]⟩
      else ⟨games2, lb, []⟩

/-- A deleted match is gone from the registry. -/
theorem lookupGame_removeGame (games : List (String × Game)) (gid : String) :
    lookupGame (removeGame games gid) gid = none := by
  induction games with
  | nil => rfl
  | cons e rest ih =>
    by_cases h : e.1 = gid
    · simp only [removeGame, lookupGame, List.filter_cons, h] at ih ⊢
      simp [h]
    · simp only [removeGame, lookupGame, List.filter_cons] at ih ⊢
      simp [List.find?_cons, h]

/-- C8: when a player of an active match disconnects, the match is removed
from the registry at once; with the opponent socket still connected, if the
battle had started (`battleState` present) the opponent's leaderboard win
count is incremented by one and the opponent is notified it wins, and if
the battle had not started no win is awarded and the opponent is notified
the match is cancelled. -/
theorem disconnect_outcomes (games : List (String × Game)) (lb : String → ℕ)
    (socketId gid : String) (g : Game) (oid : String) (wi di : PlayerInfo)
    (hfind : games.find? (fun e => (playerInfoOf e.2 socketId).isSome)
      = some (gid, g))
    (hopp : opponentIdOf g socketId = some oid)
    (hwi : playerInfoOf g oid = some wi)
    (hdi : playerInfoOf g socketId = some di) :
    lookupGame (handleDisconnect games lb socketId true).games gid = none
    ∧ (g.battleState.isSome = true →
        (handleDisconnect games lb socketId true).leaderboard wi.username
            = lb wi.username + 1
        ∧ (∀ u, u ≠ wi.username →
            (handleDisconnect games lb socketId true).leaderboard u = lb u)
        ∧ (handleDisconnect games lb socketId true).events
            = [Event.opponentDisconnected
                (di.username ++ " disconnected. " ++ "You win!")])
    ∧ (g.battleState = none →
        (handleDisconnect games lb socketId true).leaderboard = lb
        ∧ (handleDisconnect games lb socketId true).events
            = [Event.opponentDisconnected
                (di.username ++ " disconnected. " ++ "Match cancelled.")]) := by
  have hh : handleDisconnect games lb socketId true =
      ⟨removeGame games gid,
        if g.battleState.isSome then
          fun u => if u = wi.username then lb u + 1 else lb u
        else lb,
        [Event.opponentDisconnected (di.username ++ " disconnected. "
          ++ (if g.battleState.isSome then "You win!" else "Match cancelled."))]⟩ := by
    simp only [handleDisconnect, hfind, hopp, hwi, hdi, if_pos]
  refine ⟨?_, ?_, ?_⟩
  · rw [hh]
    exact lookupGame_removeGame games gid
  · intro hb
    rw [hh]
    refine ⟨by simp [hb], fun u hu => by simp [hb, hu], by simp [hb]⟩
  · intro hb
    rw [hh]
    refine ⟨by simp [hb], by simp [hb]⟩

/-- A concrete two-player match used by the battle-phase witnesses. -/
def mkCreature (cid : ℤ) (nm : String) (hp atk df spd : ℚ) (mvs : List Move) :
    Creature :=
  { base := { id := cid, apiId := toString cid, name := nm, hp := hp, attack := atk,
              defense := df, speed := spd, spriteUrl := none, moves := mvs,
              abilityName := "Static" },
    maxHp := hp, currentHp := hp, fainted := false }

def tackleMove : Move := { name := "Tackle", power := some 40 }

def sampleGameSelecting : Game :=
  { id := "g1", ord1 := "A", ord2 := "B",
    info1 := { username := "alice", hasSelected := false, team := none },
    info2 := { username := "bob", hasSelected := false, team := none },
    battleState := none, turn := none, log := [] }

theorem disconnect_outcomes_witness :
    lookupGame (handleDisconnect [("g1", sampleGameSelecting)] (fun _ => 0)
      "A" true).games "g1" = none
    ∧ (handleDisconnect [("g1", sampleGameSelecting)] (fun _ => 0) "A" true).events
        = [Event.opponentDisconnected
            ("alice" ++ " disconnected. " ++ "Match cancelled.")] := by
  have h := disconnect_outcomes [("g1", sampleGameSelecting)] (fun _ => 0)
    "A" "g1" sampleGameSelecting "B"
    { username := "bob", hasSelected := false, team := none }
    { username := "alice", hasSelected := false, team := none }
    (by decide) (by decide) (by decide) (by decide)
  exact ⟨h.1, by rw [(h.2.2 rfl).2]⟩

/-- C3 (amended): in the battling phase, on the actor's turn with both
active references valid (and the opponent side not under a forced-switch
obligation, which cannot hold on the actor's turn), a `switch(idx)` action
succeeds iff `idx` is in range of the team, the target creature is not
fainted, and the target creature's IDENTIFIER differs from the active
creature's identifier — so with repeated identifiers in a team, a
non-active duplicate of the active creature is rejected; on success the
actor's `mustSwitch` obligation is cleared, the turn always passes to the
opponent, and no creature is modified (in particular no faint check
occurs and the match is never deleted). -/
theorem switch_action (g : Game) (lb : String → ℕ) (actorId : String)
    (idx : ℤ) (r : ℚ) (bs : BattleState) (ps os : PlayerBattle)
    (pk ok : Creature) (oppId : String)
    (hbs : g.battleState = some bs)
    (hturn : g.turn = some actorId)
    (hps : (if bs.player1.id = actorId then bs.player1 else bs.player2) = ps)
    (hos : (if bs.player1.id = actorId then bs.player2 else bs.player1) = os)
    (hpk : activePokemon ps = some pk)
    (hok : activePokemon os = some ok)
    (hosm : os.mustSwitch = false)
    (hopp : opponentIdOf g actorId = some oppId) :
    ((performAction g lb actorId (.switch idx) r).error = false
      ↔ (0 ≤ idx ∧ idx < (ps.team.length : ℤ)
          ∧ ∃ tp, ps.team[idx.toNat]? = some tp
              ∧ tp.fainted = false ∧ tp.base.id ≠ pk.base.id))
    ∧ (∀ tp, ps.team[idx.toNat]? = some tp →
        ¬ (idx < 0 ∨ (ps.team.length : ℤ) ≤ idx) →
        tp.fainted = false → tp.base.id ≠ pk.base.id →
        performAction g lb actorId (.switch idx) r =
          ⟨some { g with
              battleState := some (writeBack bs actorId
                { ps with activePokemonIndex := idx, mustSwitch := false } os),
              turn := some oppId,
              log := [ps.username ++ " switched from " ++ pk.base.name ++ " to "
                  ++ tp.base.name ++ "!",
                "It's " ++ os.username ++ "'s turn!"] },
            lb, [Event.gameStateUpdate], false⟩) := by
  have hturn2 : ¬ (g.turn ≠ some actorId) := by simp [hturn]
  have hred : performAction g lb actorId (.switch idx) r =
      (if idx < 0 ∨ (ps.team.length : ℤ) ≤ idx then
        ⟨some { g with log := [] }, lb, [], true⟩
      else
        match ps.team[idx.toNat]? with
        | none => ⟨some { g with log := [] }, lb, [], true⟩
        | some target =>
          if target.fainted ∨ target.base.id = pk.base.id then
            ⟨some { g with log := [] }, lb, [], true⟩
          else
            ⟨some { g with
                battleState := some (writeBack bs actorId
                  { ps with activePokemonIndex := idx, mustSwitch := false } os),
                turn := some oppId,
                log := [ps.username ++ " switched from " ++ pk.base.name ++ " to "
                    ++ target.base.name ++ "!",
                  "It's " ++ os.username ++ "'s turn!"] },
              lb, [Event.gameStateUpdate], false⟩) := by
    simp only [performAction, hbs, hturn2, if_false, hps, hos, hpk, hok, hopp,
      Action.isSwitch, Bool.not_true, Bool.and_false, hosm, if_true]
    rfl
  constructor
  · rw [hred]
    by_cases h1 : idx < 0 ∨ (ps.team.length : ℤ) ≤ idx
    · rw [if_pos h1]
      simp only [show ((⟨some { g with log := [] }, lb, [], true⟩ :
        ActionResult).error = false) = False by simp]
      constructor
      · intro h
        exact h.elim
      · rintro ⟨ha, hb, -⟩
        omega
    · rw [if_neg h1]
      push_neg at h1
      obtain ⟨hge, hlt⟩ := h1
      have hsome : ∃ tp, ps.team[idx.toNat]? = some tp := by
        have : idx.toNat < ps.team.length := by omega
        exact ⟨ps.team[idx.toNat], List.getElem?_eq_getElem this⟩
      obtain ⟨tp, htp⟩ := hsome
      simp only [htp]
      by_cases h2 : tp.fainted = true ∨ tp.base.id = pk.base.id
      · rw [if_pos h2]
        simp only [show ((⟨some { g with log := [] }, lb, [], true⟩ :
          ActionResult).error = false) = False by simp]
        constructor
        · intro h
          exact h.elim
        · rintro ⟨-, -, tp2, htp2, hf2, hid2⟩
          injection htp2 with h3
          subst h3
          rcases h2 with h2 | h2
          · rw [h2] at hf2
            cases hf2
          · exact hid2 h2
      · rw [if_neg h2]
        push_neg at h2
        constructor
        · intro _
          exact ⟨hge, hlt, tp, rfl, by simpa using h2.1, h2.2⟩
        · intro _
          rfl
  · intro tp htp hrange hf hid
    rw [hred, if_neg hrange]
    simp only [htp]
    rw [if_neg (by rw [hf]; simpa using hid)]

/-- A team with a repeated identifier: two distinct Pikachu instances. -/
def dupTeam : List Creature :=
  [ mkCreature 25 "Pikachu" 35 55 40 90 [tackleMove]
  , mkCreature 25 "Pikachu" 35 55 40 90 [tackleMove]
  , mkCreature 7 "Squirtle" 44 48 65 43 [tackleMove] ]

def dupPB1 : PlayerBattle :=
  { id := "A", username := "alice", team := dupTeam,
    activePokemonIndex := 0, mustSwitch := false }

def dupPB2 : PlayerBattle :=
  { id := "B", username := "bob", team := dupTeam,
    activePokemonIndex := 0, mustSwitch := false }

/-- A battling match whose player one team contains repeated identifiers. -/
def dupGame : Game :=
  { id := "g2", ord1 := "A", ord2 := "B",
    info1 := { username := "alice", hasSelected := true, team := some dupTeam },
    info2 := { username := "bob", hasSelected := true, team := some dupTeam },
    battleState := some { player1 := dupPB1, player2 := dupPB2 },
    turn := some "A", log := [] }

/-- C3 counterexample: on player one's turn, switching to team index 1 —
which is in range, not fainted, and not the active creature (the active
index is 0) — is rejected, because the target is a duplicate of the active
creature's identifier and the code compares identifiers
(server.js 320), not instances.  The claim's success condition is
therefore not sufficient. -/
theorem switch_action_counterexample :
    (performAction dupGame (fun _ => 0) "A" (.switch 1) 1).error = true
    ∧ ((0 : ℤ) ≤ 1 ∧ (1 : ℤ) < (dupTeam.length : ℤ))
    ∧ (dupTeam[1]?.all fun c => !c.fainted) = true
    ∧ (dupGame.battleState.all fun bs => bs.player1.activePokemonIndex ≠ 1) = true := by
  refine ⟨by decide, ⟨by decide, by decide⟩, by decide, by decide⟩

theorem switch_action_witness :
    (performAction dupGame (fun _ => 0) "A" (.switch 2) 1).error = false := by
  have h := switch_action dupGame (fun _ => 0) "A" 2 1
    { player1 := dupPB1, player2 := dupPB2 } dupPB1 dupPB2
    (mkCreature 25 "Pikachu" 35 55 40 90 [tackleMove])
    (mkCreature 25 "Pikachu" 35 55 40 90 [tackleMove])
    "B" rfl rfl (by decide) (by decide) (by decide) (by decide) (by decide) (by decide)
  exact h.1.mpr ⟨by decide, by decide,
    mkCreature 7 "Squirtle" 44 48 65 43 [tackleMove], by decide, by decide, by decide⟩

/-- C6: an attack that brings the defending active creature's HP to 0 or
below sets its `currentHp` to exactly 0 and `fainted` to `true`; when the
defending side still has at least one non-fainted teammate, the turn passes
to the defending side with `mustSwitch = true`, and an attack subsequently
submitted by that side before it switches is rejected with no state
change. -/
theorem faint_forced_switch (g : Game) (lb : String → ℕ) (actorId : String)
    (mn : String) (r : ℚ) (bs : BattleState) (ps os : PlayerBattle)
    (pk ok : Creature) (mv : Move) (oppId : String)
    (hbs : g.battleState = some bs)
    (hturn : g.turn = some actorId)
    (hmem : actorId = g.ord1 ∨ actorId = g.ord2)
    (hord : g.ord1 ≠ g.ord2)
    (hid1 : bs.player1.id = g.ord1)
    (hps : (if bs.player1.id = actorId then bs.player1 else bs.player2) = ps)
    (hos : (if bs.player1.id = actorId then bs.player2 else bs.player1) = os)
    (hpk : activePokemon ps = some pk)
    (hok : activePokemon os = some ok)
    (hmsw : ps.mustSwitch = false)
    (hnf : pk.fainted = false)
    (hfind : pk.base.moves.find? (fun m => m.name = mn) = some mv)
    (hopp : opponentIdOf g actorId = some oppId)
    (hko : ok.currentHp
      - ((calculateDamage (some pk) (some ok) (some mv) r : ℤ) : ℚ) ≤ 0)
    (hremain :
      ((os.team.set os.activePokemonIndex.toNat
          { ok with currentHp := 0, fainted := true }).filter
        fun p2 => !p2.fainted).length ≠ 0) :
    ∃ g2,
      performAction g lb actorId (.attack mn) r =
        ⟨some g2, lb,
          [Event.gameStateUpdate,
            Event.forceSwitch (ok.base.name ++ " fainted!")], false⟩
      ∧ g2.turn = some oppId
      ∧ g2.battleState = some (writeBack bs actorId ps
          { os with
              team := os.team.set os.activePokemonIndex.toNat
                { ok with currentHp := 0, fainted := true },
              mustSwitch := true })
      ∧ activePokemon
          { os with
              team := os.team.set os.activePokemonIndex.toNat
                { ok with currentHp := 0, fainted := true },
              mustSwitch := true }
          = some { ok with currentHp := 0, fainted := true }
      ∧ (∀ (lb2 : String → ℕ) (mn2 : String) (r2 : ℚ),
          performAction g2 lb2 oppId (.attack mn2) r2 = ⟨some g2, lb2, [], true⟩) := by
  have hturn2 : ¬ (g.turn ≠ some actorId) := by simp [hturn]
  have hoknn : 0 ≤ os.activePokemonIndex ∧
      os.team[os.activePokemonIndex.toNat]? = some ok := by
    unfold activePokemon at hok
    by_cases h : 0 ≤ os.activePokemonIndex
    · rw [if_pos h] at hok
      exact ⟨h, hok⟩
    · rw [if_neg h] at hok
      cases hok
  have hlen : os.activePokemonIndex.toNat < os.team.length :=
    List.getElem?_eq_some.mp hoknn.2 |>.1
  set os2 : PlayerBattle :=
    { os with
        team := os.team.set os.activePokemonIndex.toNat
          { ok with currentHp := 0, fainted := true },
        mustSwitch := true } with hos2
  have hact2 : activePokemon os2 = some { ok with currentHp := 0, fainted := true } := by
    unfold activePokemon
    rw [hos2]
    simp only [if_pos hoknn.1]
    exact List.getElem?_set_eq_of_lt _ (by simpa using hlen)
  have hred : performAction g lb actorId (.attack mn) r =
      ⟨some { g with
          battleState := some (writeBack bs actorId ps os2),
          turn := some oppId,
          log := [ps.username ++ "'s " ++ pk.base.name ++ " used " ++ mv.name ++ "!",
            if powerPos mv.power then
              os.username ++ "'s " ++ ok.base.name ++ " took "
                ++ toString (calculateDamage (some pk) (some ok) (some mv) r)
                ++ " damage."
            else "It had no effect...",
            os.username ++ "'s " ++ ok.base.name ++ " fainted!",
            os.username ++ " must switch Pokémon!"] },
        lb,
        [Event.gameStateUpdate, Event.forceSwitch (ok.base.name ++ " fainted!")],
        false⟩ := by
    simp only [performAction, hbs, hturn2, if_false, hps, hos, hpk, hok, hopp,
      Action.isSwitch, Bool.not_false, Bool.and_false, hmsw, hfind, hnf,
      Bool.false_and, Bool.if_false_left, Bool.not_true, if_pos hko, hremain]
    simp [hko, hremain, hos2]
  refine ⟨_, hred, rfl, rfl, hact2, ?_⟩
  intro lb2 mn2 r2
  have hbs2 : ({ g with
      battleState := some (writeBack bs actorId ps os2),
      turn := some oppId,
      log := [ps.username ++ "'s " ++ pk.base.name ++ " used " ++ mv.name ++ "!",
        if powerPos mv.power then
          os.username ++ "'s " ++ ok.base.name ++ " took "
            ++ toString (calculateDamage (some pk) (some ok) (some mv) r)
            ++ " damage."
        else "It had no effect...",
        os.username ++ "'s " ++ ok.base.name ++ " fainted!",
        os.username ++ " must switch Pokémon!"] } : Game).battleState
    = some (writeBack bs actorId ps os2) := rfl
  rcases hmem with hA | hA
  · -- actor is player one; the writeBack keeps ps in slot one
    have hcond : bs.player1.id = actorId := by rw [hid1, hA]
    have hps1 : bs.player1 = ps := by rwa [if_pos hcond] at hps
    have hos1 : bs.player2 = os := by rwa [if_pos hcond] at hos
    have hoppv : oppId = g.ord2 := by
      unfold opponentIdOf at hopp
      rw [if_neg (by simp [hA]), if_pos (by rw [hA]; exact Ne.symm hord)] at hopp
      exact (Option.some.injEq _ _).mp hopp.symm
    have hwb : writeBack bs actorId ps os2 = { player1 := ps, player2 := os2 } := by
      unfold writeBack
      rw [if_pos hcond]
    have hpid : ps.id = actorId := by rw [← hps1]; exact hcond
    have hne : ¬ ({ player1 := ps, player2 := os2 } : BattleState).player1.id
        = oppId := by
      simp only [hpid, hoppv, hA]
      exact hord
    simp only [performAction, hbs2, hwb]
    rw [if_neg (by simp)]
    simp only [if_neg hne]
    have hos2id : activePokemon os2 = some { ok with currentHp := 0, fainted := true } :=
      hact2
    simp only [hos2id, hpk, Action.isSwitch, Bool.not_false]
    have : os2.mustSwitch = true := rfl
    simp [this]
  · -- actor is player two; the writeBack keeps ps in slot two
    have hcond : ¬ bs.player1.id = actorId := by
      rw [hid1, hA]
      exact hord
    have hps1 : bs.player2 = ps := by rwa [if_neg hcond] at hps
    have hos1 : bs.player1 = os := by rwa [if_neg hcond] at hos
    have hoppv : oppId = g.ord1 := by
      unfold opponentIdOf at hopp
      rw [if_pos (by rw [hA]; exact hord)] at hopp
      exact (Option.some.injEq _ _).mp hopp.symm
    have hwb : writeBack bs actorId ps os2 = { player1 := os2, player2 := ps } := by
      unfold writeBack
      rw [if_neg hcond]
    have hosid : os2.id = oppId := by
      have : os2.id = os.id := rfl
      rw [this, ← hos1, hid1, hoppv]
    have hpos : ({ player1 := os2, player2 := ps } : BattleState).player1.id
        = oppId := hosid
    simp only [performAction, hbs2, hwb]
    rw [if_neg (by simp)]
    simp only [if_pos hpos]
    have hos2id : activePokemon os2 = some { ok with currentHp := 0, fainted := true } :=
      hact2
    simp only [hos2id, hpk, Action.isSwitch, Bool.not_false]
    have : os2.mustSwitch = true := rfl
    simp [this]

def megaMove : Move := { name := "Mega Punch", power := some 100 }

def caterpie : Creature := mkCreature 10 "Caterpie" 1 30 20 45 [tackleMove]

def charizard : Creature := mkCreature 6 "Charizard" 78 200 50 100 [megaMove]

def squirtle : Creature := mkCreature 7 "Squirtle" 44 48 65 43 [tackleMove]

def faintPB1 : PlayerBattle :=
  { id := "A", username := "alice", team := [charizard, charizard, charizard],
    activePokemonIndex := 0, mustSwitch := false }

def faintPB2 : PlayerBattle :=
  { id := "B", username := "bob", team := [caterpie, squirtle, squirtle],
    activePokemonIndex := 0, mustSwitch := false }

/-- A battling match one hit away from a forced switch. -/
def faintGame : Game :=
  { id := "g3", ord1 := "A", ord2 := "B",
    info1 := { username := "alice", hasSelected := true,
               team := some faintPB1.team },
    info2 := { username := "bob", hasSelected := true,
               team := some faintPB2.team },
    battleState := some { player1 := faintPB1, player2 := faintPB2 },
    turn := some "A", log := [] }

theorem faint_forced_switch_witness :
    ∃ g2,
      performAction faintGame (fun _ => 0) "A" (.attack "Mega Punch") (9 / 10) =
        ⟨some g2, (fun _ => 0),
          [Event.gameStateUpdate,
            Event.forceSwitch (caterpie.base.name ++ " fainted!")], false⟩
      ∧ g2.turn = some "B" := by
  have hko : caterpie.currentHp
      - ((calculateDamage (some charizard) (some caterpie) (some megaMove)
          (9 / 10) : ℤ) : ℚ) ≤ 0 := by
    simp only [calculateDamage, charizard, caterpie, megaMove, mkCreature]
    norm_num
  obtain ⟨g2, h1, h2, -⟩ := faint_forced_switch faintGame (fun _ => 0) "A"
    "Mega Punch" (9 / 10) { player1 := faintPB1, player2 := faintPB2 }
    faintPB1 faintPB2 charizard caterpie megaMove "B"
    rfl rfl (Or.inl rfl) (by decide) rfl (by decide) (by decide) (by decide)
    (by decide) rfl rfl (by decide) (by decide) hko (by decide)
  exact ⟨g2, h1, h2⟩

/-- C7: an attack that faints the last standing (non-fainted) creature of
the defending side ends the match: the action is not an error, the
attacker's leaderboard win count (keyed by username) is incremented by
exactly one with every other entry unchanged, the match room receives the
final snapshot broadcast followed by a game-over notification naming the
winner, and the match is removed from the registry of active games — the
terminal state of the match. -/
theorem match_end (games : List (String × Game)) (lb : String → ℕ)
    (gid actorId : String) (g : Game) (mn : String) (r : ℚ)
    (bs : BattleState) (ps os : PlayerBattle) (pk ok : Creature) (mv : Move)
    (oppId : String)
    (hlook : lookupGame games gid = some g)
    (hbs : g.battleState = some bs)
    (hturn : g.turn = some actorId)
    (hmem : actorId = g.ord1 ∨ actorId = g.ord2)
    (hord : g.ord1 ≠ g.ord2)
    (hps : (if bs.player1.id = actorId then bs.player1 else bs.player2) = ps)
    (hos : (if bs.player1.id = actorId then bs.player2 else bs.player1) = os)
    (hpk : activePokemon ps = some pk)
    (hok : activePokemon os = some ok)
    (hmsw : ps.mustSwitch = false)
    (hnf : pk.fainted = false)
    (hfind : pk.base.moves.find? (fun m => m.name = mn) = some mv)
    (hopp : opponentIdOf g actorId = some oppId)
    (hko : ok.currentHp
      - ((calculateDamage (some pk) (some ok) (some mv) r : ℤ) : ℚ) ≤ 0)
    (hlast :
      ((os.team.set os.activePokemonIndex.toNat
          { ok with currentHp := 0, fainted := true }).filter
        fun p2 => !p2.fainted).length = 0) :
    ∃ wi, playerInfoOf g actorId = some wi
      ∧ (performActionServer games lb gid actorId (.attack mn) r).error = false
      ∧ (performActionServer games lb gid actorId (.attack mn) r).events
          = [Event.gameStateUpdate, Event.gameOverEvt actorId]
      ∧ (performActionServer games lb gid actorId (.attack mn) r).leaderboard
          wi.username = lb wi.username + 1
      ∧ (∀ u, u ≠ wi.username →
          (performActionServer games lb gid actorId (.attack mn) r).leaderboard u
            = lb u)
      ∧ lookupGame (performActionServer games lb gid actorId (.attack mn) r).games
          gid = none := by
  have hturn2 : ¬ (g.turn ≠ some actorId) := by simp [hturn]
  have hwl : ∃ wi li, playerInfoOf g actorId = some wi
      ∧ playerInfoOf g oppId = some li := by
    rcases hmem with hA | hA
    · have hoppv : oppId = g.ord2 := by
        unfold opponentIdOf at hopp
        rw [if_neg (by simp [hA]), if_pos (by rw [hA]; exact Ne.symm hord)] at hopp
        exact (Option.some.injEq _ _).mp hopp.symm
      refine ⟨g.info1, g.info2, ?_, ?_⟩
      · unfold playerInfoOf
        rw [if_pos hA]
      · unfold playerInfoOf
        rw [hoppv, if_neg (Ne.symm hord), if_pos rfl]
    · have hoppv : oppId = g.ord1 := by
        unfold opponentIdOf at hopp
        rw [if_pos (by rw [hA]; exact hord)] at hopp
        exact (Option.some.injEq _ _).mp hopp.symm
      refine ⟨g.info2, g.info1, ?_, ?_⟩
      · unfold playerInfoOf
        rw [if_neg (by rw [hA]; exact Ne.symm hord), if_pos hA]
      · unfold playerInfoOf
        rw [hoppv, if_pos rfl]
  obtain ⟨wi, li, hwi, hli⟩ := hwl
  have hred : performAction g lb actorId (.attack mn) r =
      ⟨none, fun u => if u = wi.username then lb u + 1 else lb u,
        [Event.gameStateUpdate, Event.gameOverEvt actorId], false⟩ := by
    simp only [performAction, hbs, hturn2, if_false, hps, hos, hpk, hok, hopp,
      Action.isSwitch, Bool.not_false, Bool.and_false, hmsw, hfind, hnf,
      Bool.false_and, Bool.not_true, if_pos hko, hlast, Option.some_bind, hwi, hli]
    simp [hko, hlast]
  have hsrv : performActionServer games lb gid actorId (.attack mn) r =
      ⟨removeGame games gid,
        fun u => if u = wi.username then lb u + 1 else lb u,
        [Event.gameStateUpdate, Event.gameOverEvt actorId], false⟩ := by
    simp only [performActionServer, hlook, hred]
  refine ⟨wi, hwi, ?_, ?_, ?_, ?_, ?_⟩
  · rw [hsrv]
  · rw [hsrv]
  · rw [hsrv]
    simp
  · intro u hu
    rw [hsrv]
    simp [hu]
  · rw [hsrv]
    exact lookupGame_removeGame games gid

def faintedCaterpie : Creature := { caterpie with currentHp := 0, fainted := true }

def lastStandPB2 : PlayerBattle :=
  { id := "B", username := "bob",
    team := [caterpie, faintedCaterpie, faintedCaterpie],
    activePokemonIndex := 0, mustSwitch := false }

/-- A battling match in which every defender creature but the active one
has already fainted. -/
def lastGame : Game :=
  { id := "g4", ord1 := "A", ord2 := "B",
    info1 := { username := "alice", hasSelected := true,
               team := some faintPB1.team },
    info2 := { username := "bob", hasSelected := true,
               team := some lastStandPB2.team },
    battleState := some { player1 := faintPB1, player2 := lastStandPB2 },
    turn := some "A", log := [] }

theorem match_end_witness :
    ∃ wi, playerInfoOf lastGame "A" = some wi
      ∧ (performActionServer [("g4", lastGame)] (fun _ => 0) "g4" "A"
          (.attack "Mega Punch") (9 / 10)).leaderboard wi.username
          = (fun _ => (0 : ℕ)) wi.username + 1
      ∧ lookupGame (performActionServer [("g4", lastGame)] (fun _ => 0) "g4" "A"
          (.attack "Mega Punch") (9 / 10)).games "g4" = none := by
  have hko : caterpie.currentHp
      - ((calculateDamage (some charizard) (some caterpie) (some megaMove)
          (9 / 10) : ℤ) : ℚ) ≤ 0 := by
    simp only [calculateDamage, charizard, caterpie, megaMove, mkCreature]
    norm_num
  obtain ⟨wi, hwi, -, -, h4, -, h6⟩ := match_end [("g4", lastGame)] (fun _ => 0)
    "g4" "A" lastGame "Mega Punch" (9 / 10)
    { player1 := faintPB1, player2 := lastStandPB2 }
    faintPB1 lastStandPB2 charizard caterpie megaMove "B"
    (by decide) rfl rfl (Or.inl rfl) (by decide) (by decide) (by decide)
    (by decide) (by decide) rfl rfl (by decide) (by decide) hko (by decide)
  exact ⟨wi, hwi, h4, h6⟩

/-- C5 (amended): team submission is atomic.  `selectTeam` rejects with an
error signal and no state change when the match is unknown, when the
submitting player has already submitted, or when `teamIds` is not exactly a
length-3 array of NUMBERS (the element validation is
`typeof id === 'number'`, so non-integer numeric identifiers pass
validation); and whenever any of the three concurrent creature resolutions
yields `null`, the submission fails with the registry — hence the player's
selection state (`hasSelected`, stored team) — unchanged, so a partial team
is never stored and resubmission is allowed. -/
theorem select_team_atomic (games : List (String × Game))
    (socketId gameId : String) (teamIds : Option (List (Option ℚ)))
    (env : ℚ → Option BaseData) :
    (lookupGame games gameId = none →
      selectTeam games socketId gameId teamIds env = ⟨games, [], true⟩)
    ∧ (∀ g info, lookupGame games gameId = some g →
        playerInfoOf g socketId = some info → info.hasSelected = true →
        selectTeam games socketId gameId teamIds env = ⟨games, [], true⟩)
    ∧ (∀ g info, lookupGame games gameId = some g →
        playerInfoOf g socketId = some info → info.hasSelected = false →
        (teamIds = none ∨ ∃ ids, teamIds = some ids ∧
          (ids.length ≠ 3 ∨ (ids.all fun x => x.isSome) = false)) →
        selectTeam games socketId gameId teamIds env = ⟨games, [], true⟩)
    ∧ (∀ g info ids, lookupGame games gameId = some g →
        playerInfoOf g socketId = some info → info.hasSelected = false →
        teamIds = some ids →
        ((ids.map fun x => x.bind env).any fun x => x.isNone) = true →
        selectTeam games socketId gameId teamIds env = ⟨games, [], true⟩) := by
  refine ⟨?_, ?_, ?_, ?_⟩
  · intro hlook
    simp only [selectTeam, hlook]
  · intro g info hlook hinfo hsel
    simp only [selectTeam, hlook, hinfo, hsel, if_true]
  · intro g info hlook hinfo hsel hbad
    rcases hbad with rfl | ⟨ids, rfl, hbad⟩
    · simp only [selectTeam, hlook, hinfo, hsel, Bool.false_eq_true, if_false]
    · have hcond : (ids.length ≠ 3 ∨ ¬ (ids.all fun x => x.isSome) = true) := by
        rcases hbad with h | h
        · exact Or.inl h
        · exact Or.inr (by simp [h])
      simp only [selectTeam, hlook, hinfo, hsel, Bool.false_eq_true, if_false,
        if_pos hcond]
  · intro g info ids hlook hinfo hsel hids hfail
    subst hids
    by_cases hcond : (ids.length ≠ 3 ∨ ¬ (ids.all fun x => x.isSome) = true)
    · simp only [selectTeam, hlook, hinfo, hsel, Bool.false_eq_true, if_false,
        if_pos hcond]
    · simp only [selectTeam, hlook, hinfo, hsel, Bool.false_eq_true, if_false,
        if_neg hcond, hfail, if_pos]

def pikachuBase : BaseData := (mkCreature 25 "Pikachu" 35 55 40 90 [tackleMove]).base

/-- C5 counterexample: `[1.5, 2, 3]` is a length-3 array of numbers whose
first entry is NOT an integer, yet `selectTeam` does not reject it: with an
environment resolving every identifier, the submission succeeds (no error)
and the player's selection state changes to `hasSelected = true` — the
validation at server.js 254 checks `typeof id === 'number'`, not
integrality, so the claim's "array of integers" condition does not hold of
the code. -/
theorem select_team_counterexample :
    ([some ((3 : ℚ) / 2), some 2, some 3].length = 3
      ∧ ([some ((3 : ℚ) / 2), some 2, some 3].all fun x => x.isSome) = true)
    ∧ ¬ (∃ n : ℤ, ((3 : ℚ) / 2) = (n : ℚ))
    ∧ (selectTeam [("g1", sampleGameSelecting)] "A" "g1"
        (some [some ((3 : ℚ) / 2), some 2, some 3])
        (fun _ => some pikachuBase)).error = false
    ∧ ((lookupGame (selectTeam [("g1", sampleGameSelecting)] "A" "g1"
          (some [some ((3 : ℚ) / 2), some 2, some 3])
          (fun _ => some pikachuBase)).games "g1").all
        fun g => g.info1.hasSelected) = true := by
  refine ⟨⟨rfl, by decide⟩, ?_, by decide, by decide⟩
  rintro ⟨n, hn⟩
  have h2 : (3 : ℚ) = 2 * (n : ℚ) := by
    field_simp at hn
    linarith
  have h3 : (3 : ℤ) = 2 * n := by exact_mod_cast h2
  omega

theorem select_team_atomic_witness :
    selectTeam [] "A" "g9" none (fun _ => none) = ⟨[], [], true⟩ := by
  exact (select_team_atomic [] "A" "g9" none (fun _ => none)).1 rfl

/-!
## The heap model of `structuredClone` (cache immutability)

The cache-hit paths of `getPokemonDetails` (server.js 87-91, 163-168) and
`getMoveDetails` (server.js 41-44, 71-73) return `structuredClone` of the
cached value so that caller-side mutation cannot corrupt the shared cache
entry.  Aliasing is invisible in a pure embedding, so values are modelled as
references into an explicit heap: `structuredClone` deep-copies the object
graph into fresh addresses, and a caller mutation is a write to addresses at
or above the allocation watermark that existed before its clone was made
(the only addresses the caller's copy can reach). -/

/-- A JS runtime value: a primitive or a reference to a heap object. -/
inductive JVal where
  | num (q : ℚ)
  | str (s : String)
  | jnull
  | ref (a : ℕ)
deriving DecidableEq

/-- A JS object: an ordered field list. -/
abbrev JObj := List (String × JVal)

/-- A JS heap: the allocation watermark and the memory. -/
structure Heap where
  next : ℕ
  mem : ℕ → Option JObj

/-- Clone every field value of an object in order, threading the heap. -/
def cloneListWith (f : JVal → Heap → Option (Heap × JVal)) :
    JObj → Heap → Option (Heap × JObj)
  | [], h => some (h, [])
  | (k, v) :: rest, h =>
    match f v h with
    | none => none
    | some (h1, v1) =>
      match cloneListWith f rest h1 with
      | none => none
      | some (h2, rest1) => some (h2, (k, v1) :: rest1)

/-- `structuredClone`: primitives are copied, an object reference is
deep-copied into a fresh address.  `fuel` bounds the recursion depth (the
cached data is finite and acyclic). -/
def cloneVal : ℕ → JVal → Heap → Option (Heap × JVal)
  | _, .num q, h => some (h, .num q)
  | _, .str s, h => some (h, .str s)
  | _, .jnull, h => some (h, .jnull)
  | 0, .ref _, _ => none
  | fuel + 1, .ref a, h =>
    match h.mem a with
    | none => none
    | some obj =>
      match cloneListWith (cloneVal fuel) obj h with
      | none => none
      | some (h1, obj1) =>
        some ({ next := h1.next + 1,
                mem := fun b => if b = h1.next then some obj1 else h1.mem b },
              .ref h1.next)

/-- The pure content of a value: the tree read back from the heap. -/
inductive JTree where
  | num (q : ℚ)
  | str (s : String)
  | jnull
  | obj (fields : List (String × JTree))

/-- Read back every field value of an object. -/
def readListWith (f : JVal → Option JTree) :
    JObj → Option (List (String × JTree))
  | [] => some []
  | (k, v) :: rest =>
    match f v with
    | none => none
    | some t => (readListWith f rest).map fun r => (k, t) :: r

/-- Read the content of a value out of the heap, to depth `fuel`. -/
def readVal (h : Heap) : ℕ → JVal → Option JTree
  | _, .num q => some (.num q)
  | _, .str s => some (.str s)
  | _, .jnull => some .jnull
  | 0, .ref _ => none
  | fuel + 1, .ref a =>
    match h.mem a with
    | none => none
    | some obj => (readListWith (readVal h fuel) obj).map .obj

/-- A value refers only below address `n`. -/
def VBound (n : ℕ) : JVal → Prop
  | .ref a => a < n
  | _ => True

/-- Every object stored below `n` refers only below `n`. -/
def HWfBelow (n : ℕ) (h : Heap) : Prop :=
  ∀ a, a < n → ∀ obj, h.mem a = some obj → ∀ kv ∈ obj, VBound n kv.2

/-- Nothing is stored at or above the watermark. -/
def HUnalloc (h : Heap) : Prop :=
  ∀ a, h.next ≤ a → h.mem a = none

/-- A caller-side mutation: a sequence of object overwrites. -/
def mutate (h : Heap) : List (ℕ × JObj) → Heap
  | [] => h
  | u :: us =>
    mutate { h with mem := fun b => if b = u.1 then some u.2 else h.mem b } us

theorem vbound_mono {m n : ℕ} (hmn : m ≤ n) {v : JVal} (hv : VBound m v) :
    VBound n v := by
  cases v with
  | ref a => exact lt_of_lt_of_le hv hmn
  | num q => trivial
  | str s => trivial
  | jnull => trivial

theorem readListWith_congr (f g : JVal → Option JTree) (l : JObj)
    (hfg : ∀ kv ∈ l, f kv.2 = g kv.2) : readListWith f l = readListWith g l := by
  induction l with
  | nil => rfl
  | cons kv rest ih =>
    simp only [readListWith, hfg kv (by simp)]
    rw [ih fun kv2 hkv2 => hfg kv2 (by simp [hkv2])]

/-- Reading is stable under any heap change at or above `n`, for values and
objects bounded below `n`. -/
theorem readVal_agree (n : ℕ) (h1 h2 : Heap)
    (hwf : HWfBelow n h1) (hag : ∀ a, a < n → h2.mem a = h1.mem a) :
    ∀ fuel v, VBound n v → readVal h2 fuel v = readVal h1 fuel v := by
  intro fuel
  induction fuel with
  | zero => intro v _; cases v <;> rfl
  | succ fuel ih =>
    intro v hv
    cases v with
    | num q => rfl
    | str s => rfl
    | jnull => rfl
    | ref a =>
      have ha : a < n := hv
      simp only [readVal, hag a ha]
      cases hmem : h1.mem a with
      | none => rfl
      | some obj =>
        have hc := readListWith_congr (readVal h2 fuel) (readVal h1 fuel) obj
          fun kv hkv => ih kv.2 (hwf a ha obj hmem kv hkv)
        simp [hc]

/-- Soundness of `structuredClone` over the heap model: cloning a readable,
bounded value succeeds, allocates only fresh addresses (old memory is
untouched), preserves heap well-formedness, and the clone reads back to
exactly the same content. -/
theorem cloneVal_sound :
    ∀ (fuel : ℕ) (h : Heap) (v : JVal) (t : JTree),
      HWfBelow h.next h → HUnalloc h → VBound h.next v →
      readVal h fuel v = some t →
      ∃ h2 v2, cloneVal fuel v h = some (h2, v2)
        ∧ h.next ≤ h2.next
        ∧ (∀ a, a < h.next → h2.mem a = h.mem a)
        ∧ HWfBelow h2.next h2
        ∧ HUnalloc h2
        ∧ VBound h2.next v2
        ∧ readVal h2 fuel v2 = some t := by
  intro fuel
  induction fuel with
  | zero =>
    intro h v t hwf hun hv hread
    cases v with
    | num q =>
      exact ⟨h, .num q, rfl, le_refl _, fun a _ => rfl, hwf, hun, trivial, hread⟩
    | str s =>
      exact ⟨h, .str s, rfl, le_refl _, fun a _ => rfl, hwf, hun, trivial, hread⟩
    | jnull =>
      exact ⟨h, .jnull, rfl, le_refl _, fun a _ => rfl, hwf, hun, trivial, hread⟩
    | ref a => cases hread
  | succ fuel ih =>
    have listSound : ∀ (l : JObj) (h : Heap) (ts : List (String × JTree)),
        HWfBelow h.next h → HUnalloc h → (∀ kv ∈ l, VBound h.next kv.2) →
        readListWith (readVal h fuel) l = some ts →
        ∃ h2 l2, cloneListWith (cloneVal fuel) l h = some (h2, l2)
          ∧ h.next ≤ h2.next
          ∧ (∀ a, a < h.next → h2.mem a = h.mem a)
          ∧ HWfBelow h2.next h2
          ∧ HUnalloc h2
          ∧ (∀ kv ∈ l2, VBound h2.next kv.2)
          ∧ readListWith (readVal h2 fuel) l2 = some ts := by
      intro l
      induction l with
      | nil =>
        intro h ts hwf hun _ hread
        cases hread
        exact ⟨h, [], rfl, le_refl _, fun a _ => rfl, hwf, hun, by simp, rfl⟩
      | cons kv rest ihl =>
        intro h ts hwf hun hb hread
        obtain ⟨k, v⟩ := kv
        simp only [readListWith] at hread
        cases hv : readVal h fuel v with
        | none =>
          simp only [hv] at hread
          cases hread
        | some tv =>
          simp only [hv] at hread
          cases hr : readListWith (readVal h fuel) rest with
          | none =>
            simp only [hr, Option.map_none'] at hread
            cases hread
          | some tr =>
            simp only [hr, Option.map_some', Option.some.injEq] at hread
            obtain ⟨h1, v1, hc1, hn1, hm1, hwf1, hun1, hb1, hrd1⟩ :=
              ih h v tv hwf hun (hb (k, v) (by simp)) hv
            have hb2 : ∀ kv2 ∈ rest, VBound h1.next kv2.2 := fun kv2 hkv2 =>
              vbound_mono hn1 (hb kv2 (by simp [hkv2]))
            have hrrest : readListWith (readVal h1 fuel) rest = some tr := by
              rw [readListWith_congr (readVal h1 fuel) (readVal h fuel) rest
                fun kv2 hkv2 => readVal_agree h.next h h1 hwf hm1 fuel kv2.2
                  (hb kv2 (by simp [hkv2]))]
              exact hr
            obtain ⟨h2, l2, hc2, hn2, hm2, hwf2, hun2, hb3, hrd2⟩ :=
              ihl h1 tr hwf1 hun1 hb2 hrrest
            refine ⟨h2, (k, v1) :: l2, ?_, le_trans hn1 hn2, ?_, hwf2, hun2, ?_, ?_⟩
            · simp only [cloneListWith, hc1, hc2]
            · intro a ha
              rw [hm2 a (lt_of_lt_of_le ha hn1), hm1 a ha]
            · intro kv2 hkv2
              rcases List.mem_cons.mp hkv2 with rfl | hkv2
              · exact vbound_mono hn2 hb1
              · exact hb3 kv2 hkv2
            · have hv1 : readVal h2 fuel v1 = some tv := by
                rw [readVal_agree h1.next h1 h2 hwf1 hm2 fuel v1 hb1]
                exact hrd1
              simp only [readListWith, hv1, hrd2, Option.map_some']
              rw [hread]
    intro h v t hwf hun hv hread
    cases v with
    | num q =>
      exact ⟨h, .num q, rfl, le_refl _, fun a _ => rfl, hwf, hun, trivial, hread⟩
    | str s =>
      exact ⟨h, .str s, rfl, le_refl _, fun a _ => rfl, hwf, hun, trivial, hread⟩
    | jnull =>
      exact ⟨h, .jnull, rfl, le_refl _, fun a _ => rfl, hwf, hun, trivial, hread⟩
    | ref a =>
      have ha : a < h.next := hv
      simp only [readVal] at hread
      cases hmem : h.mem a with
      | none =>
        simp only [hmem] at hread
        cases hread
      | some obj =>
        simp only [hmem] at hread
        cases hrl : readListWith (readVal h fuel) obj with
        | none =>
          simp only [hrl, Option.map_none'] at hread
          cases hread
        | some ts =>
          simp only [hrl, Option.map_some', Option.some.injEq] at hread
          obtain ⟨h1, obj1, hc1, hn1, hm1, hwf1, hun1, hb1, hrd1⟩ :=
            listSound obj h ts hwf hun (fun kv hkv => hwf a ha obj hmem kv hkv) hrl
          refine ⟨{ next := h1.next + 1,
                    mem := fun b => if b = h1.next then some obj1 else h1.mem b },
                  .ref h1.next, ?_, ?_, ?_, ?_, ?_, ?_, ?_⟩
          · simp only [cloneVal, hmem, hc1]
          · show h.next ≤ h1.next + 1
            omega
          · intro b hb
            have hb2 : b ≠ h1.next := by omega
            show (if b = h1.next then some obj1 else h1.mem b) = h.mem b
            rw [if_neg hb2]
            exact hm1 b hb
          · intro b hb obj2 hobj2 kv hkv
            have hb3 : b < h1.next + 1 := hb
            have hobj3 : (if b = h1.next then some obj1 else h1.mem b) = some obj2 :=
              hobj2
            by_cases hbe : b = h1.next
            · rw [if_pos hbe] at hobj3
              cases hobj3
              exact vbound_mono (show h1.next ≤ h1.next + 1 by omega) (hb1 kv hkv)
            · rw [if_neg hbe] at hobj3
              have hblt : b < h1.next := by omega
              exact vbound_mono (show h1.next ≤ h1.next + 1 by omega)
                (hwf1 b hblt obj2 hobj3 kv hkv)
          · intro b hb
            have hb3 : h1.next + 1 ≤ b := hb
            have hb2 : b ≠ h1.next := by omega
            show (if b = h1.next then some obj1 else h1.mem b) = none
            rw [if_neg hb2]
            exact hun1 b (by omega)
          · show h1.next < h1.next + 1
            omega
          · have hagree : ∀ b, b < h1.next →
                (⟨h1.next + 1, fun b2 => if b2 = h1.next then some obj1
                  else h1.mem b2⟩ : Heap).mem b = h1.mem b := by
              intro b hb
              show (if b = h1.next then some obj1 else h1.mem b) = h1.mem b
              rw [if_neg (by omega : b ≠ h1.next)]
            have hcong := readListWith_congr
              (readVal (⟨h1.next + 1, fun b2 => if b2 = h1.next then some obj1
                else h1.mem b2⟩ : Heap) fuel) (readVal h1 fuel) obj1
              (fun kv hkv => readVal_agree h1.next h1 _ hwf1 hagree fuel kv.2
                (hb1 kv hkv))
            simp only [readVal]
            simp [hcong, hrd1, hread]

theorem mutate_next (h : Heap) (us : List (ℕ × JObj)) :
    (mutate h us).next = h.next := by
  induction us generalizing h with
  | nil => rfl
  | cons u us ih => exact ih _

theorem mutate_mem_lt (n : ℕ) :
    ∀ (us : List (ℕ × JObj)) (h : Heap), (∀ u ∈ us, n ≤ u.1) →
      ∀ a, a < n → (mutate h us).mem a = h.mem a := by
  intro us
  induction us with
  | nil => intro h _ a _; rfl
  | cons u us ih =>
    intro h hus a ha
    have h1 : n ≤ u.1 := hus u (by simp)
    simp only [mutate]
    rw [ih _ (fun u2 hu2 => hus u2 (by simp [hu2])) a ha]
    show (if a = u.1 then some u.2 else h.mem a) = h.mem a
    rw [if_neg (by omega)]

theorem mutate_props :
    ∀ (us : List (ℕ × JObj)) (h : Heap),
      HWfBelow h.next h → HUnalloc h →
      (∀ u ∈ us, u.1 < h.next ∧ ∀ kv ∈ u.2, VBound h.next kv.2) →
      HWfBelow (mutate h us).next (mutate h us) ∧ HUnalloc (mutate h us) := by
  intro us
  induction us with
  | nil => intro h hwf hun _; exact ⟨hwf, hun⟩
  | cons u us ih =>
    intro h hwf hun hus
    have hu := hus u (by simp)
    have hwf2 : HWfBelow h.next
        ({ h with mem := fun b => if b = u.1 then some u.2 else h.mem b } : Heap) := by
      intro a ha obj hobj kv hkv
      have hobj2 : (if a = u.1 then some u.2 else h.mem a) = some obj := hobj
      by_cases hae : a = u.1
      · rw [if_pos hae] at hobj2
        cases hobj2
        exact hu.2 kv hkv
      · rw [if_neg hae] at hobj2
        exact hwf a ha obj hobj2 kv hkv
    have hun2 : HUnalloc
        ({ h with mem := fun b => if b = u.1 then some u.2 else h.mem b } : Heap) := by
      intro a ha
      have ha2 : h.next ≤ a := ha
      show (if a = u.1 then some u.2 else h.mem a) = none
      rw [if_neg (by have := hu.1; omega)]
      exact hun a ha2
    exact ih _ hwf2 hun2 (fun u2 hu2 => hus u2 (by simp [hu2]))

/-- The server's caches and heap (server.js 25, 27): the cached roots are
references into the shared heap. -/
structure CacheState where
  heap : Heap
  pokemonDataCache : String → Option JVal
  moveDataCache : String → Option JVal

/-- The cache-hit path of `getPokemonDetails` (server.js 87-91): a hit
returns `structuredClone(pokemonDataCache[identifier])`; the cache map
itself is not written. -/
def getPokemonDetailsHit (s : CacheState) (identifier : String) (fuel : ℕ) :
    Option (CacheState × JVal) :=
  match s.pokemonDataCache identifier with
  | none => none
  | some v =>
    match cloneVal fuel v s.heap with
    | none => none
    | some (h1, v1) => some ({ s with heap := h1 }, v1)

/-- The cache-hit path of `getMoveDetails` (server.js 41-44): a hit returns
`structuredClone(moveDataCache[moveName])`. -/
def getMoveDetailsHit (s : CacheState) (moveName : String) (fuel : ℕ) :
    Option (CacheState × JVal) :=
  match s.moveDataCache moveName with
  | none => none
  | some v =>
    match cloneVal fuel v s.heap with
    | none => none
    | some (h1, v1) => some ({ s with heap := h1 }, v1)

/-- Core of cache immutability: the clone reads back to the cached content;
after any mutation confined to the fresh addresses (at or above the
pre-clone watermark, below the post-clone one, writing only existing
references), the original root still reads back unchanged and a fresh clone
of it again yields the original content. -/
theorem clone_immutable (h : Heap) (fuel : ℕ) (root : JVal) (t : JTree)
    (hwf : HWfBelow h.next h) (hun : HUnalloc h)
    (hb : VBound h.next root) (hread : readVal h fuel root = some t) :
    ∃ h1 v1, cloneVal fuel root h = some (h1, v1)
      ∧ readVal h1 fuel v1 = some t
      ∧ ∀ us, (∀ u ∈ us, h.next ≤ u.1 ∧ u.1 < h1.next
            ∧ ∀ kv ∈ u.2, VBound h1.next kv.2) →
          readVal (mutate h1 us) fuel root = some t
          ∧ ∃ h2 v2, cloneVal fuel root (mutate h1 us) = some (h2, v2)
            ∧ readVal h2 fuel v2 = some t := by
  obtain ⟨h1, v1, hc, hn, hm, hwf1, hun1, _, hrd⟩ :=
    cloneVal_sound fuel h root t hwf hun hb hread
  refine ⟨h1, v1, hc, hrd, ?_⟩
  intro us hus
  have hmlt : ∀ a, a < h.next → (mutate h1 us).mem a = h1.mem a :=
    mutate_mem_lt h.next us h1 (fun u hu => (hus u hu).1)
  have hagree : ∀ a, a < h.next → (mutate h1 us).mem a = h.mem a := fun a ha => by
    rw [hmlt a ha, hm a ha]
  have hroot2 : readVal (mutate h1 us) fuel root = some t := by
    rw [readVal_agree h.next h (mutate h1 us) hwf hagree fuel root hb]
    exact hread
  refine ⟨hroot2, ?_⟩
  have hprops := mutate_props us h1 hwf1 hun1
    (fun u hu => ⟨(hus u hu).2.1, (hus u hu).2.2⟩)
  have hb2 : VBound (mutate h1 us).next root := by
    rw [mutate_next h1 us]
    exact vbound_mono hn hb
  obtain ⟨h2, v2, hc2, _, _, _, _, _, hrd2⟩ :=
    cloneVal_sound fuel (mutate h1 us) root t hprops.1 hprops.2 hb2 hroot2
  exact ⟨h2, v2, hc2, hrd2⟩

/-- C9: cache immutability.  A cache-hit fetch (`getPokemonDetails` or
`getMoveDetails`) hands the caller an independent deep copy whose content
equals the cached entry's; mutating that copy — writing to the fresh
addresses it occupies — never changes the content of the cached entry, and
a subsequent fetch for the same key returns a value whose content equals
the original: the shared cache entry is never mutated in place. -/
theorem cache_immutability (s : CacheState) (kp km : String) (fuel : ℕ)
    (rootP rootM : JVal) (tP tM : JTree)
    (hwf : HWfBelow s.heap.next s.heap) (hun : HUnalloc s.heap)
    (hrootP : s.pokemonDataCache kp = some rootP)
    (hbP : VBound s.heap.next rootP)
    (hreadP : readVal s.heap fuel rootP = some tP)
    (hrootM : s.moveDataCache km = some rootM)
    (hbM : VBound s.heap.next rootM)
    (hreadM : readVal s.heap fuel rootM = some tM) :
    (∃ s1 v1, getPokemonDetailsHit s kp fuel = some (s1, v1)
      ∧ readVal s1.heap fuel v1 = some tP
      ∧ s1.pokemonDataCache kp = some rootP
      ∧ ∀ us, (∀ u ∈ us, s.heap.next ≤ u.1 ∧ u.1 < s1.heap.next
            ∧ ∀ kv ∈ u.2, VBound s1.heap.next kv.2) →
          readVal (mutate s1.heap us) fuel rootP = some tP
          ∧ ∃ s2 v2, getPokemonDetailsHit { s1 with heap := mutate s1.heap us }
                kp fuel = some (s2, v2)
              ∧ readVal s2.heap fuel v2 = some tP)
    ∧ (∃ s1 v1, getMoveDetailsHit s km fuel = some (s1, v1)
      ∧ readVal s1.heap fuel v1 = some tM
      ∧ s1.moveDataCache km = some rootM
      ∧ ∀ us, (∀ u ∈ us, s.heap.next ≤ u.1 ∧ u.1 < s1.heap.next
            ∧ ∀ kv ∈ u.2, VBound s1.heap.next kv.2) →
          readVal (mutate s1.heap us) fuel rootM = some tM
          ∧ ∃ s2 v2, getMoveDetailsHit { s1 with heap := mutate s1.heap us }
                km fuel = some (s2, v2)
              ∧ readVal s2.heap fuel v2 = some tM) := by
  constructor
  · obtain ⟨h1, v1, hc, hrd, hmut⟩ :=
      clone_immutable s.heap fuel rootP tP hwf hun hbP hreadP
    refine ⟨{ s with heap := h1 }, v1, ?_, hrd, hrootP, ?_⟩
    · simp only [getPokemonDetailsHit, hrootP, hc]
    · intro us hus
      obtain ⟨hroot2, h2, v2, hc2, hrd2⟩ := hmut us hus
      refine ⟨hroot2, { s with heap := h2 }, v2, ?_, hrd2⟩
      simp only [getPokemonDetailsHit, hrootP, hc2]
  · obtain ⟨h1, v1, hc, hrd, hmut⟩ :=
      clone_immutable s.heap fuel rootM tM hwf hun hbM hreadM
    refine ⟨{ s with heap := h1 }, v1, ?_, hrd, hrootM, ?_⟩
    · simp only [getMoveDetailsHit, hrootM, hc]
    · intro us hus
      obtain ⟨hroot2, h2, v2, hc2, hrd2⟩ := hmut us hus
      refine ⟨hroot2, { s with heap := h2 }, v2, ?_, hrd2⟩
      simp only [getMoveDetailsHit, hrootM, hc2]

/-- A tiny concrete cache state: one Pokémon object at address 0 and one
move object at address 1. -/
def sampleHeap : Heap :=
  { next := 2,
    mem := fun a =>
      if a = 0 then some [("name", JVal.str "Pikachu"), ("hp", JVal.num 35)]
      else if a = 1 then some [("name", JVal.str "Tackle"), ("power", JVal.num 40)]
      else none }

def sampleCacheState : CacheState :=
  { heap := sampleHeap,
    pokemonDataCache := fun k => if k = "pikachu" then some (JVal.ref 0) else none,
    moveDataCache := fun k => if k = "tackle" then some (JVal.ref 1) else none }

theorem cache_immutability_witness :
    ∃ s1 v1, getPokemonDetailsHit sampleCacheState "pikachu" 1 = some (s1, v1)
      ∧ readVal s1.heap 1 v1
          = some (JTree.obj [("name", JTree.str "Pikachu"), ("hp", JTree.num 35)]) := by
  have hwf : HWfBelow sampleHeap.next sampleHeap := by
    intro a ha obj hobj kv hkv
    have ha2 : a < 2 := ha
    have hobj2 : (if a = 0 then some [("name", JVal.str "Pikachu"), ("hp", JVal.num 35)]
        else if a = 1 then some [("name", JVal.str "Tackle"), ("power", JVal.num 40)]
        else none) = some obj := hobj
    interval_cases a
    · simp only [if_true, Option.some.injEq, show ((0 : ℕ) = 0) = True by simp] at hobj2
      subst hobj2
      simp only [List.mem_cons, List.not_mem_nil, or_false] at hkv
      rcases hkv with rfl | rfl <;> trivial
    · simp only [Option.some.injEq, show ((1 : ℕ) = 0) = False by simp,
        show ((1 : ℕ) = 1) = True by simp, if_false, if_true] at hobj2
      subst hobj2
      simp only [List.mem_cons, List.not_mem_nil, or_false] at hkv
      rcases hkv with rfl | rfl <;> trivial
  have hun : HUnalloc sampleHeap := by
    intro a ha
    have ha2 : (2 : ℕ) ≤ a := ha
    show (if a = 0 then some [("name", JVal.str "Pikachu"), ("hp", JVal.num 35)]
        else if a = 1 then some [("name", JVal.str "Tackle"), ("power", JVal.num 40)]
        else none) = none
    rw [if_neg (by omega), if_neg (by omega)]
  obtain ⟨⟨s1, v1, h1, h2, -, -⟩, -⟩ := cache_immutability sampleCacheState
    "pikachu" "tackle" 1 (JVal.ref 0) (JVal.ref 1)
    (JTree.obj [("name", JTree.str "Pikachu"), ("hp", JTree.num 35)])
    (JTree.obj [("name", JTree.str "Tackle"), ("power", JTree.num 40)])
    hwf hun rfl (by show (0 : ℕ) < 2; omega) rfl rfl
    (by show (1 : ℕ) < 2; omega) rfl
  exact ⟨s1, v1, h1, h2⟩

end PokemonSrv
